import Mathlib

/-!
# Order saga of the orders service

A shallow embedding of `orders-service/index.js` and `orders-service/rabbitmq.js`.

* JavaScript numbers that the handlers only add, multiply, subtract and compare
  (prices, quantities, stock levels, totals) are values of an arbitrary type `ν`
  carrying exactly those operations; no algebraic law is assumed about them.
* Integer identifiers (order ids, user ids stored in the orders database, product ids
  of order items) are `Int`.
* The asynchronous handlers are run to completion one after another: each handler is
  a function from the world before the call to the world after it, and every effect
  it performs (HTTP call, database write, message handed to the broker) is appended
  to `World.trace` in the order in which the source performs it.
* The orders database is a table of orders, each with its items. A database call throws
  only where the source hands it a `NaN` key or the id of a row that does not exist.
* A closed broker channel makes every publication fail inside `publishToExchange`, which
  catches the error; an unset `rabbitChannel` makes the handlers skip publication.
* The `status` column is a plain string and `quantity` a plain number: the database
  stores what the handlers hand it. The handlers of `index.js` go through the Prisma
  client, not through the Sequelize model of `models/Order.js`.
* `createdAt` / `updatedAt` columns are not modelled.
-/

namespace OrdersService

/-! ## JavaScript values used as identifiers -/

/-- An identifier as it arrives in a JSON body or event payload. -/
inductive JSId where
  | undefined : JSId
  | num (n : Int) : JSId
  | str (s : String) : JSId
  deriving DecidableEq, Repr

/-- JavaScript truthiness, as tested by `!userId`. -/
def JSId.truthy : JSId → Bool
  | .undefined => false
  | .num n => n != 0
  | .str s => s != ""

/-- Rendering inside a template literal such as `${USERS_SERVICE}/${userId}`. -/
def JSId.toStr : JSId → String
  | .undefined => "undefined"
  | .num n => toString n
  | .str s => s

/-- White space skipped by `parseInt` at the start of its argument. -/
def isJSWhitespace (c : Char) : Bool :=
  c.toNat = 32 || c.toNat = 9 || c.toNat = 10 || c.toNat = 11 || c.toNat = 12 ||
  c.toNat = 13 || c.toNat = 160 || c.toNat = 65279 || c.toNat = 8232 || c.toNat = 8233

/-- Value of a character as a digit of the given radix, if it is one. -/
def digitValue (radix : Nat) (c : Char) : Option Nat :=
  let v : Option Nat :=
    if 48 ≤ c.toNat ∧ c.toNat ≤ 57 then some (c.toNat - 48)
    else if 97 ≤ c.toNat ∧ c.toNat ≤ 122 then some (c.toNat - 87)
    else if 65 ≤ c.toNat ∧ c.toNat ≤ 90 then some (c.toNat - 55)
    else none
  v.filter (fun d => d < radix)

/-- Longest run of leading digits, read as a number; `none` when there is no digit. -/
def parseDigits (radix : Nat) : List Char → Option Nat → Option Nat
  | [], acc => acc
  | c :: cs, acc =>
    match digitValue radix c with
    | some d => parseDigits radix cs (some (acc.getD 0 * radix + d))
    | none => acc

/-- The builtin `parseInt` on a string without an explicit radix: leading white space
and a sign are skipped, `0x` selects radix 16, the longest run of digits is read and
whatever follows is ignored. `none` stands for `NaN`. -/
def parseIntString (s : String) : Option Int :=
  let cs := s.toList.dropWhile isJSWhitespace
  let signed : Bool × List Char :=
    match cs with
    | c :: r => if c = '-' then (true, r) else if c = '+' then (false, r) else (false, cs)
    | [] => (false, cs)
  let based : Nat × List Char :=
    match signed.2 with
    | c :: d :: r =>
      if c = '0' ∧ (d = 'x' ∨ d = 'X') then (16, r) else (10, signed.2)
    | _ => (10, signed.2)
  (parseDigits based.1 based.2 none).map
    (fun n => if signed.1 then -(n : Int) else (n : Int))

/-- The builtin `parseInt` applied to an identifier. An integer is its own value. -/
def parseInt : JSId → Option Int
  | .undefined => none
  | .num n => some n
  | .str s => parseIntString s

/-! ## Data model -/

/-- A row of the `OrderItem` table, nested in its order. -/
structure OrderItem (ν : Type) where
  productId : Int
  quantity : ν
  name : String
  price : ν
  deriving DecidableEq, Repr

/-- A row of the `Order` table together with its items (`include: { items: true }`). -/
structure Order (ν : Type) where
  id : Int
  userId : Int
  totalAmount : ν
  status : String
  statusNote : Option String
  userDeleted : Bool
  items : List (OrderItem ν)
  deriving DecidableEq, Repr

/-- A product document as returned by the products service. -/
structure Product (ν : Type) where
  _id : Int
  name : String
  price : ν
  stock : ν
  deriving DecidableEq, Repr

/-- The broker channel handle. Every operation on a closed channel throws. -/
structure Channel where
  closed : Bool
  deriving DecidableEq, Repr

/-- Payloads of the messages the orders service publishes. -/
inductive Payload (ν : Type) where
  | orderCreated (order : Order ν)
  | statusUpdated (orderId userId : Int) (oldStatus newStatus : String)
  | orderDeleted (orderId userId : Int)
  | reserved (productId : Int) (quantity : ν)
  | inventory (productId : Int) (quantity : ν) (orderId : Int)
  deriving DecidableEq, Repr

/-- A message handed to `channel.publish`. -/
structure Message (ν : Type) where
  exchange : String
  routingKey : String
  payload : Payload ν
  deriving DecidableEq, Repr

/-- The `data` argument of `prisma.order.update` / `updateMany`: the columns it sets. -/
structure OrderPatch where
  status : Option String
  statusNote : Option String
  userDeleted : Option Bool
  deriving DecidableEq, Repr

/-- Effects a handler performs on its collaborators, in program order. -/
inductive Effect (ν : Type) where
  | getUser (id : String)
  | getProduct (productId : Int)
  | putStock (productId : Int) (stock : ν)
  | published (m : Message ν)
  | orderCreate (order : Order ν)
  | orderUpdate (id : Int) (data : OrderPatch)
  | orderUpdateMany (userId : Int) (data : OrderPatch)
  | orderDelete (id : Int)
  deriving DecidableEq, Repr

/-- Everything the handlers read or write: the orders database, the users and products
services reached over HTTP, the module-level `rabbitChannel` variable and the log of
effects performed so far. -/
structure World (ν : Type) where
  orders : List (Order ν)
  nextOrderId : Int
  users : List String
  products : List (Product ν)
  rabbitChannel : Option Channel
  trace : List (Effect ν)
  deriving Repr

/-- Error bodies of the HTTP responses. -/
inductive ErrorBody (ν : Type) where
  | userIdAndProductsRequired
  | userNotFound
  | notEnoughStock (name : String) (available : ν)
  | productNotFound (productId : Int)
  | failedToCreateOrder
  | statusRequired
  | orderNotFound
  | failedToUpdateOrderStatus
  | failedToDeleteOrder
  deriving DecidableEq, Repr

/-- Body of an HTTP response. -/
inductive Body (ν : Type) where
  | error (e : ErrorBody ν)
  | order (o : Order ν)
  | empty
  deriving DecidableEq, Repr

/-- An HTTP response: status code and body. -/
structure Response (ν : Type) where
  status : Nat
  body : Body ν
  deriving DecidableEq, Repr

/-- One entry of the `products` array of an order-creation request. -/
structure LineItem (ν : Type) where
  productId : Int
  quantity : ν
  deriving DecidableEq, Repr

/-- The `products` field of an order-creation request: absent (or otherwise falsy),
present but not an array, or an array of line items. -/
inductive ProductsField (ν : Type) where
  | missing
  | notArray
  | array (items : List (LineItem ν))
  deriving DecidableEq, Repr

/-- Body of `POST /`. -/
structure CreateOrderBody (ν : Type) where
  userId : JSId
  products : ProductsField ν
  deriving DecidableEq, Repr

/-- Payload of a `product.*` event as read by `handleProductEvent`. -/
structure ProductEventData where
  productId : JSId
  productName : String
  deriving DecidableEq, Repr

/-- Payload of a `user.*` event as read by `handleUserEvent`. -/
structure UserEventData where
  userId : JSId
  deriving DecidableEq, Repr

variable {ν : Type}

/-! ## Collaborators: database, broker, HTTP services -/

/-- Append one effect to the log. -/
def World.log (w : World ν) (e : Effect ν) : World ν :=
  { w with trace := w.trace ++ [e] }

/-- Columns named in the patch are overwritten, the others are kept. -/
def OrderPatch.apply (d : OrderPatch) (o : Order ν) : Order ν :=
  { o with
    status := d.status.getD o.status
    statusNote := (match d.statusNote with
      | some n => some n
      | none => o.statusNote)
    userDeleted := d.userDeleted.getD o.userDeleted }

/-- The filter `status: { notIn: [...] }`. -/
def statusNotIn (excluded : List String) (o : Order ν) : Bool :=
  !(excluded.contains o.status)

/-- Lookup by primary key: `prisma.order.findUnique({ where: { id } })`. -/
def prisma.order.findUnique (w : World ν) (id : Int) : Option (Order ν) :=
  w.orders.find? (fun o => decide (o.id = id))

/-- Update by primary key: `prisma.order.update({ where: { id }, data })`. It throws
(`none`) when no row has that id; otherwise it returns the updated row. -/
def prisma.order.update (w : World ν) (id : Int) (data : OrderPatch) :
    Option (World ν × Order ν) :=
  match prisma.order.findUnique w id with
  | none => none
  | some o =>
    some ({ w with
            orders := w.orders.map (fun x => if x.id = id then data.apply x else x)
            trace := w.trace ++ [Effect.orderUpdate id data] },
          data.apply o)

/-- Bulk update `prisma.order.updateMany({ where: { userId, status: { notIn } }, data })`. -/
def prisma.order.updateMany (w : World ν) (userId : Int) (notIn : List String)
    (data : OrderPatch) : World ν :=
  { w with
    orders := w.orders.map
      (fun o => if o.userId = userId ∧ statusNotIn notIn o = true then data.apply o else o)
    trace := w.trace ++ [Effect.orderUpdateMany userId data] }

/-- Deletion by primary key: `prisma.order.delete({ where: { id } })`; the items go with
the order. It throws (`none`) when no row has that id. -/
def prisma.order.delete (w : World ν) (id : Int) : Option (World ν) :=
  match prisma.order.findUnique w id with
  | none => none
  | some _ =>
    some { w with
           orders := w.orders.filter (fun o => !decide (o.id = id))
           trace := w.trace ++ [Effect.orderDelete id] }

/-- Insertion `prisma.order.create({ data: { userId, totalAmount, status, items } })`:
the id is the next value of the sequence, `statusNote` is null and `userDeleted` takes
its default `false`. -/
def prisma.order.create (w : World ν) (userId : Int) (totalAmount : ν) (status : String)
    (items : List (OrderItem ν)) : World ν × Order ν :=
  let o : Order ν :=
    { id := w.nextOrderId, userId := userId, totalAmount := totalAmount, status := status,
      statusNote := none, userDeleted := false, items := items }
  ({ w with
     orders := w.orders ++ [o]
     nextOrderId := w.nextOrderId + 1
     trace := w.trace ++ [Effect.orderCreate o] }, o)

/-- Query `prisma.orderItem.findMany({ where: { productId, order: { status: { notIn } } } })`:
one result per matching item; only the `orderId` of each result is used by the caller. -/
def prisma.orderItem.findMany (w : World ν) (productId : Int) (notIn : List String) :
    List Int :=
  (w.orders.filter (statusNotIn notIn)).flatMap
    (fun o => (o.items.filter (fun i => decide (i.productId = productId))).map (fun _ => o.id))

/-- Publication to a topic exchange (`rabbitmq.js`, `publishToExchange`). On a closed
channel `assertExchange` throws; the error is caught and logged, nothing is published
and nothing is thrown to the caller. -/
def publishToExchange (w : World ν) (channel : Channel) (exchangeName routingKey : String)
    (message : Payload ν) : World ν :=
  if channel.closed then w
  else w.log (Effect.published ⟨exchangeName, routingKey, message⟩)

/-- User lookup `axios.get(USERS_SERVICE/userId)`: whether the users service knows the id. -/
def axiosGetUser (w : World ν) (userId : JSId) : World ν × Bool :=
  (w.log (Effect.getUser userId.toStr), w.users.contains userId.toStr)

/-- Product lookup `axios.get(PRODUCTS_SERVICE/productId)`; `none` when it throws. -/
def axiosGetProduct (w : World ν) (productId : Int) : World ν × Option (Product ν) :=
  (w.log (Effect.getProduct productId),
   w.products.find? (fun p => decide (p._id = productId)))

/-- Stock write `axios.put(PRODUCTS_SERVICE/productId, { stock })`. The flag is `false`
when the products service answers 404 and the call throws. -/
def axiosPutStock (w : World ν) (productId : Int) (stock : ν) : World ν × Bool :=
  match w.products.find? (fun p => decide (p._id = productId)) with
  | none => (w.log (Effect.putStock productId stock), false)
  | some _ =>
    ({ w with
       products := w.products.map
         (fun p => if p._id = productId then { p with stock := stock } else p)
       trace := w.trace ++ [Effect.putStock productId stock] }, true)

/-! ## Event handlers (`index.js`, lines 55-119) -/

/-- The loop `for (const item of affectedOrders) await prisma.order.update(...)` of
`handleProductEvent`; an update that throws ends the loop (the error is caught and
logged by the enclosing `try`). -/
def markAffected (data : OrderPatch) : World ν → List Int → World ν
  | w, [] => w
  | w, orderId :: rest =>
    match prisma.order.update w orderId data with
    | some (w1, _) => markAffected data w1 rest
    | none => w

/-- Handler of the `product.#` subscription. When `parseInt(productId)` is `NaN` the
query is refused by the database client; the error is caught and logged and the store is
left as it is. -/
def handleProductEvent (w : World ν) (data : ProductEventData) (routingKey : String) :
    World ν :=
  if routingKey = "product.deleted" then
    match parseInt data.productId with
    | none => w
    | some productId =>
      let affectedOrders := prisma.orderItem.findMany w productId ["completed", "cancelled"]
      markAffected
        { status := some "affected"
          statusNote := some ("Product " ++ data.productName ++ " is no longer available")
          userDeleted := none }
        w affectedOrders
  else w

/-- Handler of the `user.#` subscription. When `parseInt(userId)` is `NaN` the update is
refused by the database client; the error is caught and logged and the store is left as
it is. -/
def handleUserEvent (w : World ν) (data : UserEventData) (routingKey : String) : World ν :=
  if routingKey = "user.deleted" then
    match parseInt data.userId with
    | none => w
    | some userId =>
      prisma.order.updateMany w userId ["completed", "cancelled"]
        { status := some "affected"
          statusNote := some "User account has been deleted"
          userDeleted := some true }
  else w

/-! ## HTTP handlers (`index.js`, lines 400-640) -/

/-- The loop `for (const item of products)` of `POST /`, with the running `totalAmount`
and `orderItems`. It ends with the response of an early `return`, or with the total and
the items once every line item has been processed. -/
def createOrderItemLoop [Add ν] [Mul ν] [Sub ν] [LT ν] [DecidableRel (fun a b : ν => a < b)] :
    World ν → ν → List (OrderItem ν) → List (LineItem ν) →
    World ν × Except (Response ν) (ν × List (OrderItem ν))
  | w, totalAmount, orderItems, [] => (w, Except.ok (totalAmount, orderItems))
  | w, totalAmount, orderItems, item :: rest =>
    let r := axiosGetProduct w item.productId
    match r.2 with
    | none => (r.1, Except.error ⟨404, Body.error (ErrorBody.productNotFound item.productId)⟩)
    | some product =>
      if item.quantity > product.stock then
        (r.1, Except.error ⟨400, Body.error (ErrorBody.notEnoughStock product.name product.stock)⟩)
      else
        let itemTotal := product.price * item.quantity
        let orderItems1 := orderItems ++
          [{ productId := item.productId, quantity := item.quantity,
             name := product.name, price := product.price }]
        match r.1.rabbitChannel with
        | some channel =>
          createOrderItemLoop
            (publishToExchange r.1 channel "inventory_events" "inventory.reserved"
              (Payload.reserved product._id item.quantity))
            (totalAmount + itemTotal) orderItems1 rest
        | none =>
          let u := axiosPutStock r.1 item.productId (product.stock - item.quantity)
          if u.2 then createOrderItemLoop u.1 (totalAmount + itemTotal) orderItems1 rest
          else (u.1, Except.error ⟨404, Body.error (ErrorBody.productNotFound item.productId)⟩)

/-- Handler of `POST /` (create new order). A `parseInt(userId)` that is `NaN` makes
`prisma.order.create` throw, which the outer `catch` answers with 500. -/
def createOrder [Zero ν] [Add ν] [Mul ν] [Sub ν] [LT ν] [DecidableRel (fun a b : ν => a < b)]
    (w : World ν) (body : CreateOrderBody ν) : World ν × Response ν :=
  match body.products with
  | ProductsField.missing => (w, ⟨400, Body.error ErrorBody.userIdAndProductsRequired⟩)
  | ProductsField.notArray => (w, ⟨400, Body.error ErrorBody.userIdAndProductsRequired⟩)
  | ProductsField.array products =>
    if body.userId.truthy = false ∨ products.length = 0 then
      (w, ⟨400, Body.error ErrorBody.userIdAndProductsRequired⟩)
    else
      let u := axiosGetUser w body.userId
      if u.2 = false then (u.1, ⟨404, Body.error ErrorBody.userNotFound⟩)
      else
        let r := createOrderItemLoop u.1 0 [] products
        match r.2 with
        | Except.error res => (r.1, res)
        | Except.ok (totalAmount, orderItems) =>
          match parseInt body.userId with
          | none => (r.1, ⟨500, Body.error ErrorBody.failedToCreateOrder⟩)
          | some userId =>
            let c := prisma.order.create r.1 userId totalAmount "processing" orderItems
            match c.1.rabbitChannel with
            | some channel =>
              (publishToExchange c.1 channel "order_events" "order.created"
                (Payload.orderCreated c.2), ⟨201, Body.order c.2⟩)
            | none => (c.1, ⟨201, Body.order c.2⟩)

/-- The loop `for (const item of order.items) await publishToExchange(...)` that the
status-update and deletion handlers run on the `inventory_events` exchange. -/
def publishInventory (w : World ν) (channel : Channel) (routingKey : String)
    (order : Order ν) : World ν :=
  order.items.foldl
    (fun acc item => publishToExchange acc channel "inventory_events" routingKey
      (Payload.inventory item.productId item.quantity order.id))
    w

/-- Handler of `PATCH /:id/status` (update order status). `status` is the `status` field
of the body, `none` when it is absent. A lookup with `parseInt(id) = NaN` throws and is
answered by the outer `catch` with 500. The `try` around the publications catches
nothing, since `publishToExchange` never throws. -/
def updateOrderStatus (w : World ν) (idParam : String) (status : Option String) :
    World ν × Response ν :=
  match status with
  | none => (w, ⟨400, Body.error ErrorBody.statusRequired⟩)
  | some status =>
    if status = "" then (w, ⟨400, Body.error ErrorBody.statusRequired⟩)
    else
      match parseInt (JSId.str idParam) with
      | none => (w, ⟨500, Body.error ErrorBody.failedToUpdateOrderStatus⟩)
      | some orderId =>
        match prisma.order.findUnique w orderId with
        | none => (w, ⟨404, Body.error ErrorBody.orderNotFound⟩)
        | some order =>
          let oldStatus := order.status
          match prisma.order.update w orderId
              { status := some status, statusNote := none, userDeleted := none } with
          | none => (w, ⟨500, Body.error ErrorBody.failedToUpdateOrderStatus⟩)
          | some (w1, updatedOrder) =>
            match w1.rabbitChannel with
            | none => (w1, ⟨200, Body.order updatedOrder⟩)
            | some channel =>
              let w2 := publishToExchange w1 channel "order_events" "order.status_updated"
                (Payload.statusUpdated order.id order.userId oldStatus status)
              let w3 :=
                if status = "completed" ∧ oldStatus ≠ "completed" then
                  publishInventory w2 channel "inventory.confirmed" order
                else w2
              let w4 :=
                if status = "cancelled" ∧ oldStatus ≠ "cancelled" ∧ oldStatus ≠ "completed" then
                  publishInventory w3 channel "inventory.restored" order
                else w3
              (w4, ⟨200, Body.order updatedOrder⟩)

/-- Handler of `DELETE /:id` (delete order): the row is read, then removed, then the
events are published from the row that was read. -/
def deleteOrder (w : World ν) (idParam : String) : World ν × Response ν :=
  match parseInt (JSId.str idParam) with
  | none => (w, ⟨500, Body.error ErrorBody.failedToDeleteOrder⟩)
  | some orderId =>
    match prisma.order.findUnique w orderId with
    | none => (w, ⟨404, Body.error ErrorBody.orderNotFound⟩)
    | some order =>
      match prisma.order.delete w orderId with
      | none => (w, ⟨500, Body.error ErrorBody.failedToDeleteOrder⟩)
      | some w1 =>
        match w1.rabbitChannel with
        | none => (w1, ⟨204, Body.empty⟩)
        | some channel =>
          let w2 := publishToExchange w1 channel "order_events" "order.deleted"
            (Payload.orderDeleted order.id order.userId)
          let w3 :=
            if order.status ≠ "completed" ∧ order.status ≠ "cancelled" then
              publishInventory w2 channel "inventory.restored" order
            else w2
          (w3, ⟨204, Body.empty⟩)

/-! ## Vocabulary of the statements -/

/-- Effects performed between the world `w` and a later world `w1`. -/
def emitted (w w1 : World ν) : List (Effect ν) :=
  w1.trace.drop w.trace.length

/-- The messages among the effects that were published with the given routing key. -/
def publishedWith (routingKey : String) (es : List (Effect ν)) : List (Message ν) :=
  es.filterMap (fun e =>
    match e with
    | Effect.published m => if m.routingKey = routingKey then some m else none
    | _ => none)

/-- The direct stock writes among the effects. -/
def stockWrites (es : List (Effect ν)) : List (Int × ν) :=
  es.filterMap (fun e =>
    match e with
    | Effect.putStock p s => some (p, s)
    | _ => none)

/-- The `inventory.*` message of one order item. -/
def inventoryMessage (routingKey : String) (orderId : Int) (item : OrderItem ν) : Message ν :=
  ⟨"inventory_events", routingKey, Payload.inventory item.productId item.quantity orderId⟩

/-- The sum of `price * quantity` over the items, accumulated from `0` in item order. -/
def itemsTotal [Zero ν] [Add ν] [Mul ν] (items : List (OrderItem ν)) : ν :=
  items.foldl (fun acc item => acc + item.price * item.quantity) 0

/-- An order is terminal when it is completed or cancelled. -/
def isTerminal (o : Order ν) : Prop :=
  o.status = "completed" ∨ o.status = "cancelled"

instance (o : Order ν) : Decidable (isTerminal o) := by
  unfold isTerminal; infer_instance


/-- Name and price under which the products service currently knows a product id. -/
def productInfo (w : World ν) (productId : Int) : Option (String × ν) :=
  (w.products.find? (fun p => decide (p._id = productId))).map (fun p => (p.name, p.price))

/-- The order item `it` is the snapshot of line item `li` taken from the products of `w`. -/
def IsSnapshot (w : World ν) (li : LineItem ν) (it : OrderItem ν) : Prop :=
  it.productId = li.productId ∧ it.quantity = li.quantity ∧
    productInfo w li.productId = some (it.name, it.price)

/-- The broker channel is available: the handle is set and the channel is not closed. -/
def channelOpen (w : World ν) : Bool :=
  match w.rabbitChannel with
  | some channel => !channel.closed
  | none => false

/-- The `data` of the update made by `PATCH /:id/status`. -/
def statusPatch (status : String) : OrderPatch :=
  { status := some status, statusNote := none, userDeleted := none }

/-- A sequence of status-update requests applied one after another to the same order. -/
def applyStatusUpdates (w : World ν) (idParam : String) (statuses : List (Option String)) :
    World ν :=
  statuses.foldl (fun acc st => (updateOrderStatus acc idParam st).1) w

/-- The effects that follow the removal of order `id` from the store. -/
def afterDelete (id : Int) : List (Effect ν) → List (Effect ν)
  | [] => []
  | Effect.orderDelete i :: es => if i = id then es else afterDelete id es
  | _ :: es => afterDelete id es

/-- The effects that precede the removal of order `id` from the store (all of them when
the order is never removed). -/
def beforeDelete (id : Int) : List (Effect ν) → List (Effect ν)
  | [] => []
  | Effect.orderDelete i :: es =>
    if i = id then [] else Effect.orderDelete i :: beforeDelete id es
  | e :: es => e :: beforeDelete id es

/-- Number of `prisma.order.update` calls among the effects that address order `id`. -/
def updateCount (id : Int) (es : List (Effect ν)) : Nat :=
  (es.filter (fun e =>
    match e with
    | Effect.orderUpdate i _ => decide (i = id)
    | _ => false)).length

/-- The `data` of the update made by `handleProductEvent`. -/
def productDeletedPatch (productName : String) : OrderPatch :=
  { status := some "affected"
    statusNote := some ("Product " ++ productName ++ " is no longer available")
    userDeleted := none }

/-- The `inventory.reserved` message of one requested line item. -/
def reservedMessage (li : LineItem ν) : Message ν :=
  ⟨"inventory_events", "inventory.reserved", Payload.reserved li.productId li.quantity⟩

/-! ## Subscription consumer (`rabbitmq.js`, lines 67-85) -/

/-- How a call of a subscription callback ends for its caller. A synchronous callback
returns or throws. An `async` callback, such as `handleProductEvent` and
`handleUserEvent`, hands back a promise at once; whether that promise later rejects is
not known to the caller at the call. -/
inductive CallbackResult where
  | returned
  | threw
  | promise (rejects : Bool)
  deriving DecidableEq, Repr

/-- A message handed to the consumer by the channel: its content, `none` when
`JSON.parse` throws on it, and the routing key of its fields. -/
structure Delivery (α : Type) where
  content : Option α
  routingKey : String

/-- The consumer that `subscribeToExchange` registers with `channel.consume`: whether
`channel.ack(message)` is reached. A null message is skipped; an exception of
`JSON.parse` or of the callback leaves the function before the acknowledgement; the
value the callback returns is not looked at. -/
def subscribeToExchange.onMessage {α : Type} (callback : α → String → CallbackResult)
    (message : Option (Delivery α)) : Bool :=
  match message with
  | none => false
  | some m =>
    match m.content with
    | none => false
    | some content =>
      match callback content m.routingKey with
      | CallbackResult.threw => false
      | CallbackResult.returned => true
      | CallbackResult.promise _ => true

/-! ## Connection (`rabbitmq.js`, lines 7-20) -/

/-- Outcome of one pass through the `try` block of `connect`: `amqp.connect` rejects, or
it resolves and `createChannel` rejects, or both resolve. -/
inductive ConnectAttempt where
  | connectThrows
  | createChannelThrows (connection : Nat)
  | connected (connection : Nat) (channel : Channel)
  deriving DecidableEq, Repr

/-- What `connect` does, in order: a pass through the `try` block (numbered from 0), or a
`setTimeout` of the given number of milliseconds. -/
inductive ConnectStep where
  | attempt (k : Nat)
  | wait (ms : Nat)
  deriving DecidableEq, Repr

/-- The function `connect`, started when `k` attempts have been made; `broker k` is the
outcome of attempt `k`. A failed attempt is followed by a wait of 5000 ms and by the
recursive call `return connect()`. The first argument bounds the depth of the recursion;
`none` means that this bound was reached, never that `connect` gave up. -/
def connect (broker : Nat → ConnectAttempt) :
    Nat → Nat → Option (Nat × Channel × List ConnectStep)
  | 0, _ => none
  | fuel + 1, k =>
    match broker k with
    | ConnectAttempt.connected connection channel =>
      some (connection, channel, [ConnectStep.attempt k])
    | _ =>
      (connect broker fuel (k + 1)).map
        (fun r => (r.1, r.2.1, ConnectStep.attempt k :: ConnectStep.wait 5000 :: r.2.2))

/-- The statuses the `Order` model accepts (`models/Order.js`, `validate.isIn`). -/
def validStatuses : List String :=
  ["pending", "processing", "shipped", "delivered", "completed", "cancelled", "affected"]

/-- Total quantity that the `inventory.reserved` messages in the list reserve for one
product, accumulated from `0` in message order. -/
def reservedQuantity [Zero ν] [Add ν] (productId : Int) (ms : List (Message ν)) : ν :=
  ms.foldl (fun acc m =>
    match m.payload with
    | Payload.reserved p q => if p = productId then acc + q else acc
    | _ => acc) 0

/-- Two worlds that differ at most in their log and in which channel the handle holds,
both handles being set. -/
def SameUpToChannel (w w1 : World ν) : Prop :=
  w.orders = w1.orders ∧ w.nextOrderId = w1.nextOrderId ∧ w.users = w1.users ∧
    w.products = w1.products ∧ w.rabbitChannel.isSome = true ∧
    w1.rabbitChannel.isSome = true

/-! ## Concrete stores and requests -/

/-- A world with one user and two products, the broker channel open. -/
def shopWorld : World Int :=
  { orders := [], nextOrderId := 1, users := ["1"],
    products := [⟨1, "Laptop", 1000, 10⟩, ⟨2, "Phone", 700, 5⟩],
    rabbitChannel := some ⟨false⟩, trace := [] }

/-- A request for two laptops and three phones by user 1. -/
def shopBody : CreateOrderBody Int :=
  ⟨JSId.num 1, ProductsField.array [⟨1, 2⟩, ⟨2, 3⟩]⟩

/-- The order that `shopBody` creates in `shopWorld`. -/
def shopOrder : Order Int :=
  { id := 1, userId := 1, totalAmount := 4100, status := "processing", statusNote := none,
    userDeleted := false,
    items := [⟨1, 2, "Laptop", 1000⟩, ⟨2, 3, "Phone", 700⟩] }

/-- A request by user 1 whose second line asks for more phones than are in stock. -/
def overdrawnBody : CreateOrderBody Int :=
  ⟨JSId.num 1, ProductsField.array [⟨1, 1⟩, ⟨2, 100⟩]⟩

/-- The store of `shopWorld` after `shopBody` has been accepted: one processing order. -/
def orderWorld : World Int :=
  { shopWorld with orders := [shopOrder], nextOrderId := 2 }

/-- Three orders of user 7 (two open, one completed) and one order of user 8. -/
def reconcilerWorld : World Int :=
  { orders :=
      [{ id := 1, userId := 7, totalAmount := 10, status := "processing", statusNote := none,
         userDeleted := false, items := [⟨101, 1, "Widget", 10⟩, ⟨101, 2, "Widget", 10⟩] },
       { id := 2, userId := 7, totalAmount := 20, status := "shipped", statusNote := none,
         userDeleted := false, items := [⟨102, 1, "Gadget", 20⟩] },
       { id := 3, userId := 7, totalAmount := 10, status := "completed", statusNote := none,
         userDeleted := false, items := [⟨101, 1, "Widget", 10⟩] },
       { id := 4, userId := 8, totalAmount := 10, status := "pending", statusNote := none,
         userDeleted := false, items := [⟨101, 1, "Widget", 10⟩] }],
    nextOrderId := 5, users := ["8"], products := [], rabbitChannel := some ⟨false⟩,
    trace := [] }

/-- The store of `shopWorld` with the channel handle set and the channel closed, as after
the loss of the broker connection. -/
def brokerLostWorld : World Int :=
  { shopWorld with rabbitChannel := some ⟨true⟩ }

/-- A store with one open order of user 507 for product 507. -/
def prefixWorld : World Int :=
  { orders :=
      [{ id := 1, userId := 507, totalAmount := 10, status := "processing",
         statusNote := none, userDeleted := false, items := [⟨507, 1, "Widget", 10⟩] }],
    nextOrderId := 2, users := [], products := [], rabbitChannel := some ⟨false⟩,
    trace := [] }

/-- A broker that refuses the connection twice, then accepts it but fails to open a
channel, then accepts both. -/
def flakyBroker : Nat → ConnectAttempt
  | 0 => ConnectAttempt.connectThrows
  | 1 => ConnectAttempt.connectThrows
  | 2 => ConnectAttempt.createChannelThrows 10
  | _ => ConnectAttempt.connected 11 ⟨false⟩

/-- A request by user 1 for no laptop at all and for minus three phones. -/
def nonPositiveBody : CreateOrderBody Int :=
  ⟨JSId.num 1, ProductsField.array [⟨1, 0⟩, ⟨2, -3⟩]⟩

/-- The order that `nonPositiveBody` creates in `shopWorld`. -/
def nonPositiveOrder : Order Int :=
  { id := 1, userId := 1, totalAmount := -2100, status := "processing", statusNote := none,
    userDeleted := false, items := [⟨1, 0, "Laptop", 1000⟩, ⟨2, -3, "Phone", 700⟩] }

/-- A request by user 1 with two lines of six laptops each, ten being in stock. -/
def twoLinesBody : CreateOrderBody Int :=
  ⟨JSId.num 1, ProductsField.array [⟨1, 6⟩, ⟨1, 6⟩]⟩

/-! ## Lemmas on the collaborators and on order creation -/

theorem publishToExchange_products (w : World ν) (c : Channel) (e k : String) (m : Payload ν) :
    (publishToExchange w c e k m).products = w.products := by
  unfold publishToExchange World.log; split <;> rfl

theorem publishToExchange_rabbitChannel (w : World ν) (c : Channel) (e k : String)
    (m : Payload ν) : (publishToExchange w c e k m).rabbitChannel = w.rabbitChannel := by
  unfold publishToExchange World.log; split <;> rfl

theorem publishToExchange_orders (w : World ν) (c : Channel) (e k : String) (m : Payload ν) :
    (publishToExchange w c e k m).orders = w.orders := by
  unfold publishToExchange World.log; split <;> rfl

theorem productInfo_congr {w w1 : World ν} (h : w1.products = w.products) (pid : Int) :
    productInfo w1 pid = productInfo w pid := by
  unfold productInfo; rw [h]

theorem axiosPutStock_productInfo (w : World ν) (pid : Int) (s : ν) (q : Int) :
    productInfo (axiosPutStock w pid s).1 q = productInfo w q := by
  unfold axiosPutStock
  split
  · rfl
  · unfold productInfo
    simp only [List.find?_map, Option.map_map]
    have hp : ((fun p : Product ν => decide (p._id = q)) ∘
        fun p : Product ν => if p._id = pid then { p with stock := s } else p) =
        fun p : Product ν => decide (p._id = q) := by
      funext p
      by_cases hpid : p._id = pid <;> simp [hpid]
    rw [hp]
    congr 1
    funext p
    by_cases hpid : p._id = pid <;> simp [hpid]

/-- What the item loop of `POST /` has computed when it ends without an early return. -/
theorem createOrderItemLoop_ok [Add ν] [Mul ν] [Sub ν] [LT ν]
    [DecidableRel (fun a b : ν => a < b)] (items : List (LineItem ν)) :
    ∀ (w : World ν) (total : ν) (acc : List (OrderItem ν)) (w1 : World ν) (total1 : ν)
      (acc1 : List (OrderItem ν)),
      createOrderItemLoop w total acc items = (w1, Except.ok (total1, acc1)) →
      ∃ new : List (OrderItem ν), acc1 = acc ++ new ∧
        total1 = new.foldl (fun a it => a + it.price * it.quantity) total ∧
        List.Forall₂ (IsSnapshot w) items new ∧
        (∀ pid, productInfo w1 pid = productInfo w pid) := by
  induction items with
  | nil =>
    intro w total acc w1 total1 acc1 h
    simp only [createOrderItemLoop, Prod.mk.injEq, Except.ok.injEq] at h
    obtain ⟨rfl, rfl, rfl⟩ := h
    exact ⟨[], by simp, rfl, List.Forall₂.nil, fun _ => rfl⟩
  | cons item rest ih =>
    intro w total acc w1 total1 acc1 h
    rw [createOrderItemLoop] at h
    simp only [axiosGetProduct] at h
    split at h
    · simp at h
    · rename_i product hfind
      have hsnap : ∀ wm : World ν, (∀ pid, productInfo wm pid = productInfo w pid) →
          ∀ new, List.Forall₂ (IsSnapshot wm) rest new →
            List.Forall₂ (IsSnapshot w) (item :: rest)
              ({ productId := item.productId, quantity := item.quantity,
                 name := product.name, price := product.price } :: new) := by
        intro wm hwm new hnew
        refine List.Forall₂.cons ⟨rfl, rfl, ?_⟩ (hnew.imp ?_)
        · unfold productInfo; rw [hfind]; rfl
        · intro li it hit
          exact ⟨hit.1, hit.2.1, (hwm li.productId) ▸ hit.2.2⟩
      split at h
      · simp at h
      · split at h
        · rename_i channel hch
          obtain ⟨new, hacc, htot, hfa, hinfo⟩ := ih _ _ _ _ _ _ h
          have hmid : ∀ pid, productInfo
              (publishToExchange (w.log (Effect.getProduct item.productId)) channel
                "inventory_events" "inventory.reserved"
                (Payload.reserved product._id item.quantity)) pid = productInfo w pid :=
            fun pid => productInfo_congr (publishToExchange_products _ _ _ _ _) pid
          refine ⟨_ :: new, ?_, ?_, hsnap _ hmid new hfa, fun pid => (hinfo pid).trans (hmid pid)⟩
          · rw [hacc]; simp
          · rw [htot]; rfl
        · rename_i hch
          split at h
          · obtain ⟨new, hacc, htot, hfa, hinfo⟩ := ih _ _ _ _ _ _ h
            have hmid : ∀ pid, productInfo
                (axiosPutStock (w.log (Effect.getProduct item.productId)) item.productId
                  (product.stock - item.quantity)).1 pid = productInfo w pid :=
              fun pid => axiosPutStock_productInfo _ _ _ pid
            refine ⟨_ :: new, ?_, ?_, hsnap _ hmid new hfa,
              fun pid => (hinfo pid).trans (hmid pid)⟩
            · rw [hacc]; simp
            · rw [htot]; rfl
          · simp at h

/-- C1 (evaluation at the failing input): a request whose second line item fails the
stock check is rejected with 400 and persists no order, yet the reservation of its first
line item has already gone out: the `inventory.reserved` event when the channel is set,
the direct stock write when it is not. -/
theorem C1_rejected_creation_keeps_earlier_reservation :
    (createOrder shopWorld overdrawnBody).2 =
        ⟨400, Body.error (ErrorBody.notEnoughStock "Phone" 5)⟩ ∧
      (createOrder shopWorld overdrawnBody).1.orders = [] ∧
      publishedWith "inventory.reserved"
          (emitted shopWorld (createOrder shopWorld overdrawnBody).1) =
        [⟨"inventory_events", "inventory.reserved", Payload.reserved 1 1⟩] ∧
      (createOrder { shopWorld with rabbitChannel := none } overdrawnBody).2.status = 400 ∧
      (createOrder { shopWorld with rabbitChannel := none } overdrawnBody).1.orders = [] ∧
      stockWrites (emitted { shopWorld with rabbitChannel := none }
          (createOrder { shopWorld with rabbitChannel := none } overdrawnBody).1) =
        [(1, 9)] := by
  decide

/-- An early return of the item loop carries an error body. -/
theorem createOrderItemLoop_error [Add ν] [Mul ν] [Sub ν] [LT ν]
    [DecidableRel (fun a b : ν => a < b)] (items : List (LineItem ν)) :
    ∀ (w : World ν) (total : ν) (acc : List (OrderItem ν)) (res : Response ν),
      (createOrderItemLoop w total acc items).2 = Except.error res →
      ∃ e, res.body = Body.error e := by
  induction items with
  | nil =>
    intro w total acc res h
    simp [createOrderItemLoop] at h
  | cons item rest ih =>
    intro w total acc res h
    rw [createOrderItemLoop] at h
    simp only [] at h
    split at h
    · simp only [Except.error.injEq] at h
      subst h; exact ⟨_, rfl⟩
    · split at h
      · simp only [Except.error.injEq] at h
        subst h; exact ⟨_, rfl⟩
      · split at h
        · exact ih _ _ _ _ h
        · split at h
          · exact ih _ _ _ _ h
          · simp only [Except.error.injEq] at h
            subst h; exact ⟨_, rfl⟩

/-- The path through `POST /` that ends in a 201 response. -/
theorem createOrder_created [Zero ν] [Add ν] [Mul ν] [Sub ν] [LT ν]
    [DecidableRel (fun a b : ν => a < b)] (w : World ν) (body : CreateOrderBody ν)
    (o : Order ν) (h : (createOrder w body).2 = ⟨201, Body.order o⟩) :
    ∃ lines userId wl total items, body.products = ProductsField.array lines ∧
      createOrderItemLoop (axiosGetUser w body.userId).1 0 [] lines =
        (wl, Except.ok (total, items)) ∧
      parseInt body.userId = some userId ∧
      o = (prisma.order.create wl userId total "processing" items).2 ∧
      (createOrder w body).1.orders = wl.orders ++ [o] := by
  unfold createOrder at h ⊢
  cases hp : body.products with
  | missing => rw [hp] at h; simp at h
  | notArray => rw [hp] at h; simp at h
  | array lines =>
    rw [hp] at h
    simp only [] at h ⊢
    by_cases hv : body.userId.truthy = false ∨ lines.length = 0
    · rw [if_pos hv] at h; simp at h
    · rw [if_neg hv] at h ⊢
      by_cases hu : (axiosGetUser w body.userId).2 = false
      · rw [if_pos hu] at h; simp at h
      · rw [if_neg hu] at h ⊢
        have herr := createOrderItemLoop_error lines (axiosGetUser w body.userId).1 0 []
        have hpair : createOrderItemLoop (axiosGetUser w body.userId).1 0 [] lines =
            ((createOrderItemLoop (axiosGetUser w body.userId).1 0 [] lines).1,
             (createOrderItemLoop (axiosGetUser w body.userId).1 0 [] lines).2) := rfl
        generalize (createOrderItemLoop (axiosGetUser w body.userId).1 0 [] lines).2 = r2
          at h herr hpair ⊢
        generalize (createOrderItemLoop (axiosGetUser w body.userId).1 0 [] lines).1 = wl
          at h hpair ⊢
        cases r2 with
        | error res =>
          simp only [] at h
          obtain ⟨e, he⟩ := herr res rfl
          rw [h] at he
          simp at he
        | ok p =>
          obtain ⟨total, items⟩ := p
          simp only [] at h ⊢
          cases hid : parseInt body.userId with
          | none => rw [hid] at h; simp at h
          | some userId =>
            rw [hid] at h
            simp only [] at h ⊢
            refine ⟨lines, userId, wl, total, items, rfl, hpair, rfl, ?_, ?_⟩
            · split at h <;> simp at h <;> exact h.symm
            · split at h
              · simp only [Response.mk.injEq, Body.order.injEq, true_and] at h
                rw [publishToExchange_orders, ← h]
                rfl
              · simp only [Response.mk.injEq, Body.order.injEq, true_and] at h
                rw [← h]
                rfl

/-- C2: when `POST /` answers 201 with the order `o`, that order is in the store, its
`totalAmount` is the sum over its items of `price * quantity`, and its items are the
snapshots of the requested line items: each carries the price (and name) under which
the products service knows the product of its line. -/
theorem C2_totalAmount_is_sum_of_snapshot_prices [Zero ν] [Add ν] [Mul ν] [Sub ν] [LT ν]
    [DecidableRel (fun a b : ν => a < b)] (w : World ν) (body : CreateOrderBody ν)
    (o : Order ν) (h : (createOrder w body).2 = ⟨201, Body.order o⟩) :
    o ∈ (createOrder w body).1.orders ∧ o.totalAmount = itemsTotal o.items ∧
      ∃ lines, body.products = ProductsField.array lines ∧
        List.Forall₂ (IsSnapshot w) lines o.items := by
  obtain ⟨lines, userId, wl, total, items, hp, hloop, -, ho, hstore⟩ :=
    createOrder_created w body o h
  obtain ⟨new, hnew, htot, hfa, -⟩ := createOrderItemLoop_ok lines _ _ _ _ _ _ hloop
  simp only [List.nil_append] at hnew
  subst hnew
  have hitems : o.items = items := by rw [ho]; rfl
  have htotal : o.totalAmount = total := by rw [ho]; rfl
  refine ⟨by rw [hstore]; simp, ?_, lines, hp, ?_⟩
  · rw [hitems, htotal, htot]; rfl
  · rw [hitems]
    exact hfa.imp (fun li it hit => ⟨hit.1, hit.2.1, hit.2.2⟩)

/-- C2 at a request for two products: the total 4100 is 2 * 1000 + 3 * 700. -/
theorem C2_totalAmount_witness :
    (createOrder shopWorld shopBody).2 = ⟨201, Body.order shopOrder⟩ ∧
      (shopOrder ∈ (createOrder shopWorld shopBody).1.orders ∧
        shopOrder.totalAmount = itemsTotal shopOrder.items ∧
        ∃ lines, shopBody.products = ProductsField.array lines ∧
          List.Forall₂ (IsSnapshot shopWorld) lines shopOrder.items) :=
  ⟨by decide, C2_totalAmount_is_sum_of_snapshot_prices shopWorld shopBody shopOrder (by decide)⟩

/-! ## Status update and deletion -/

theorem emitted_append (w w1 : World ν) (es : List (Effect ν))
    (h : w1.trace = w.trace ++ es) : emitted w w1 = es := by
  unfold emitted; rw [h]; simp

theorem publishToExchange_trace (w : World ν) (c : Channel) (e k : String) (m : Payload ν) :
    (publishToExchange w c e k m).trace =
      w.trace ++ (if c.closed then [] else [Effect.published ⟨e, k, m⟩]) := by
  unfold publishToExchange World.log
  cases c.closed <;> simp

theorem publishInventory_trace (w : World ν) (c : Channel) (k : String) (o : Order ν) :
    (publishInventory w c k o).trace =
      w.trace ++ (if c.closed then []
        else o.items.map (fun it => Effect.published (inventoryMessage k o.id it))) := by
  unfold publishInventory
  generalize o.items = items
  induction items generalizing w with
  | nil => cases c.closed <;> simp
  | cons it rest ih =>
    rw [List.foldl_cons, ih]
    unfold publishToExchange World.log inventoryMessage
    cases c.closed <;> simp

theorem publishInventory_orders (w : World ν) (c : Channel) (k : String) (o : Order ν) :
    (publishInventory w c k o).orders = w.orders := by
  unfold publishInventory
  generalize o.items = items
  induction items generalizing w with
  | nil => rfl
  | cons it rest ih => rw [List.foldl_cons, ih, publishToExchange_orders]

theorem publishedWith_append (k : String) (a b : List (Effect ν)) :
    publishedWith k (a ++ b) = publishedWith k a ++ publishedWith k b := by
  unfold publishedWith; simp

theorem publishedWith_inventory (k k1 : String) (id : Int) (items : List (OrderItem ν)) :
    publishedWith k (items.map (fun it => Effect.published (inventoryMessage k1 id it))) =
      if k1 = k then items.map (inventoryMessage k1 id) else [] := by
  unfold publishedWith
  by_cases hk : k1 = k
  · induction items with
    | nil => simp
    | cons it rest ih => simp_all [inventoryMessage]
  · induction items with
    | nil => simp
    | cons it rest ih => simp_all [inventoryMessage]

theorem update_trace (w w1 : World ν) (id : Int) (d : OrderPatch) (o1 : Order ν)
    (h : prisma.order.update w id d = some (w1, o1)) :
    w1.trace = w.trace ++ [Effect.orderUpdate id d] ∧ w1.rabbitChannel = w.rabbitChannel ∧
      w1.orders = w.orders.map (fun x => if x.id = id then d.apply x else x) := by
  unfold prisma.order.update at h
  split at h
  · simp at h
  · simp only [Option.some.injEq, Prod.mk.injEq] at h
    obtain ⟨rfl, -⟩ := h
    exact ⟨rfl, rfl, rfl⟩

theorem update_isSome (w : World ν) (id : Int) (d : OrderPatch) (o : Order ν)
    (h : prisma.order.findUnique w id = some o) :
    ∃ w1, prisma.order.update w id d = some (w1, d.apply o) := by
  unfold prisma.order.update
  rw [h]
  exact ⟨_, rfl⟩

/-- Effects of `PATCH /:id/status` on an existing order. -/
theorem updateOrderStatus_trace (w : World ν) (idParam status : String) (orderId : Int)
    (order : Order ν) (hs : status ≠ "")
    (hid : parseInt (JSId.str idParam) = some orderId)
    (hfind : prisma.order.findUnique w orderId = some order) :
    emitted w (updateOrderStatus w idParam (some status)).1 =
      Effect.orderUpdate orderId (statusPatch status) ::
        (if channelOpen w = true then
          Effect.published ⟨"order_events", "order.status_updated",
              Payload.statusUpdated order.id order.userId order.status status⟩ ::
            ((if status = "completed" ∧ order.status ≠ "completed" then
                order.items.map
                  (fun it => Effect.published (inventoryMessage "inventory.confirmed" order.id it))
              else []) ++
             (if status = "cancelled" ∧ order.status ≠ "cancelled" ∧
                  order.status ≠ "completed" then
                order.items.map
                  (fun it => Effect.published (inventoryMessage "inventory.restored" order.id it))
              else []))
        else []) := by
  apply emitted_append
  obtain ⟨w1, hupd⟩ := update_isSome w orderId (statusPatch status) order hfind
  obtain ⟨htr, hch, -⟩ := update_trace w w1 orderId _ _ hupd
  unfold updateOrderStatus
  simp only [hs, if_false, hid, hfind]
  unfold statusPatch at hupd
  rw [hupd]
  simp only []
  unfold channelOpen
  rw [← hch]
  cases hc : w1.rabbitChannel with
  | none => simp [htr]
  | some c =>
    simp only []
    by_cases h1 : status = "completed" ∧ order.status ≠ "completed"
    · by_cases h2 : status = "cancelled" ∧ order.status ≠ "cancelled" ∧
          order.status ≠ "completed"
      · exact absurd (h1.1.symm.trans h2.1) (by decide)
      · rw [if_pos h1, if_neg h2, if_pos h1, if_neg h2]
        simp only [publishInventory_trace, publishToExchange_trace, htr]
        by_cases hcl : c.closed = true <;> simp [hcl]
    · by_cases h2 : status = "cancelled" ∧ order.status ≠ "cancelled" ∧
          order.status ≠ "completed"
      · rw [if_neg h1, if_pos h2, if_neg h1, if_pos h2]
        simp only [publishInventory_trace, publishToExchange_trace, htr]
        by_cases hcl : c.closed = true <;> simp [hcl]
      · rw [if_neg h1, if_neg h2, if_neg h1, if_neg h2]
        simp only [publishToExchange_trace, htr]
        by_cases hcl : c.closed = true <;> simp [hcl]

theorem emitted_self (w : World ν) : emitted w w = [] := by
  unfold emitted; simp

theorem updateOrderStatus_no_status (w : World ν) (idParam : String) (st : Option String)
    (h : st = none ∨ st = some "") : (updateOrderStatus w idParam st).1 = w := by
  rcases h with rfl | rfl <;> simp [updateOrderStatus]

theorem publishedWith_nil (k : String) : publishedWith k ([] : List (Effect ν)) = [] := rfl

theorem publishedWith_cons_published (k : String) (m : Message ν) (es : List (Effect ν)) :
    publishedWith k (Effect.published m :: es) =
      if m.routingKey = k then m :: publishedWith k es else publishedWith k es := by
  unfold publishedWith
  by_cases h : m.routingKey = k <;> simp [h]

theorem publishedWith_cons_orderUpdate (k : String) (id : Int) (d : OrderPatch)
    (es : List (Effect ν)) :
    publishedWith k (Effect.orderUpdate id d :: es) = publishedWith k es := by
  unfold publishedWith; simp

theorem publishedWith_cons_orderDelete (k : String) (id : Int) (es : List (Effect ν)) :
    publishedWith k (Effect.orderDelete id :: es) = publishedWith k es := by
  unfold publishedWith; simp

/-- The `inventory.confirmed` messages published by `PATCH /:id/status` on an existing
order, whatever the request and the state of the channel. -/
theorem updateOrderStatus_confirmed (w : World ν) (idParam : String) (st : Option String)
    (orderId : Int) (order : Order ν) (hid : parseInt (JSId.str idParam) = some orderId)
    (hfind : prisma.order.findUnique w orderId = some order) :
    publishedWith "inventory.confirmed" (emitted w (updateOrderStatus w idParam st).1) =
      if channelOpen w = true ∧ st = some "completed" ∧ order.status ≠ "completed" then
        order.items.map (inventoryMessage "inventory.confirmed" order.id)
      else [] := by
  by_cases hst : st = none ∨ st = some ""
  · rw [updateOrderStatus_no_status w idParam st hst, emitted_self]
    rcases hst with rfl | rfl <;> simp [publishedWith]
  · obtain ⟨status, rfl, hs⟩ : ∃ s, st = some s ∧ s ≠ "" := by
      cases st with
      | none => simp at hst
      | some s => exact ⟨s, rfl, fun h => hst (Or.inr (by rw [h]))⟩
    rw [updateOrderStatus_trace w idParam status orderId order hs hid hfind]
    have hk1 : ¬("order.status_updated" = "inventory.confirmed") := by decide
    have hk2 : ¬("inventory.restored" = "inventory.confirmed") := by decide
    simp only [publishedWith_cons_orderUpdate, apply_ite (publishedWith "inventory.confirmed"),
      publishedWith_cons_published, publishedWith_append, publishedWith_inventory,
      publishedWith_nil, hk1, hk2, if_false, if_true, ite_self, List.append_nil,
      Option.some.injEq]
    by_cases ho : channelOpen w = true <;>
      by_cases h1 : status = "completed" ∧ order.status ≠ "completed" <;> simp [ho, h1]

/-- The `inventory.restored` messages published by `PATCH /:id/status` on an existing
order, whatever the request and the state of the channel. -/
theorem updateOrderStatus_restored (w : World ν) (idParam : String) (st : Option String)
    (orderId : Int) (order : Order ν) (hid : parseInt (JSId.str idParam) = some orderId)
    (hfind : prisma.order.findUnique w orderId = some order) :
    publishedWith "inventory.restored" (emitted w (updateOrderStatus w idParam st).1) =
      if channelOpen w = true ∧ st = some "cancelled" ∧ order.status ≠ "cancelled" ∧
          order.status ≠ "completed" then
        order.items.map (inventoryMessage "inventory.restored" order.id)
      else [] := by
  by_cases hst : st = none ∨ st = some ""
  · rw [updateOrderStatus_no_status w idParam st hst, emitted_self]
    rcases hst with rfl | rfl <;> simp [publishedWith]
  · obtain ⟨status, rfl, hs⟩ : ∃ s, st = some s ∧ s ≠ "" := by
      cases st with
      | none => simp at hst
      | some s => exact ⟨s, rfl, fun h => hst (Or.inr (by rw [h]))⟩
    rw [updateOrderStatus_trace w idParam status orderId order hs hid hfind]
    have hk1 : ¬("order.status_updated" = "inventory.restored") := by decide
    have hk2 : ¬("inventory.confirmed" = "inventory.restored") := by decide
    simp only [publishedWith_cons_orderUpdate, apply_ite (publishedWith "inventory.restored"),
      publishedWith_cons_published, publishedWith_append, publishedWith_inventory,
      publishedWith_nil, hk1, hk2, if_false, if_true, ite_self, List.nil_append,
      Option.some.injEq]
    by_cases ho : channelOpen w = true <;>
      by_cases h1 : status = "cancelled" ∧ order.status ≠ "cancelled" ∧
        order.status ≠ "completed" <;> simp [ho, h1]

theorem updateOrderStatus_not_found (w : World ν) (idParam : String) (st : Option String)
    (h : ∀ orderId, parseInt (JSId.str idParam) = some orderId →
      prisma.order.findUnique w orderId = none) :
    (updateOrderStatus w idParam st).1 = w := by
  unfold updateOrderStatus
  cases st with
  | none => rfl
  | some status =>
    simp only []
    split
    · rfl
    · cases hid : parseInt (JSId.str idParam) with
      | none => rfl
      | some orderId => simp only [h orderId hid]

/-- C3: a status update of an existing order while the channel is available publishes,
when the target status is `completed` and the previous status is not, exactly the
`inventory.confirmed` messages of the order items, one per item in item order, each with
the productId and quantity of its item and the id of the order; when the previous status
is already `completed`, it publishes no `inventory.confirmed` message whatever the
request. -/
theorem C3_confirmed_once_per_item_on_first_completion (w : World ν) (idParam : String)
    (orderId : Int) (order : Order ν) (hid : parseInt (JSId.str idParam) = some orderId)
    (hfind : prisma.order.findUnique w orderId = some order)
    (hopen : channelOpen w = true) :
    (order.status ≠ "completed" →
      publishedWith "inventory.confirmed"
          (emitted w (updateOrderStatus w idParam (some "completed")).1) =
        order.items.map (fun item =>
          ⟨"inventory_events", "inventory.confirmed",
            Payload.inventory item.productId item.quantity order.id⟩)) ∧
    (order.status = "completed" → ∀ st : Option String,
      publishedWith "inventory.confirmed" (emitted w (updateOrderStatus w idParam st).1) = []) := by
  constructor
  · intro hne
    rw [updateOrderStatus_confirmed w idParam _ orderId order hid hfind]
    simp [hopen, hne, inventoryMessage]
  · intro he st
    rw [updateOrderStatus_confirmed w idParam _ orderId order hid hfind]
    simp [he]

/-- C3 on a processing order with two items: completing it publishes two confirmations. -/
theorem C3_confirmed_witness :
    parseInt (JSId.str "1") = some 1 ∧
      prisma.order.findUnique orderWorld 1 = some shopOrder ∧
      channelOpen orderWorld = true ∧
      publishedWith "inventory.confirmed"
          (emitted orderWorld (updateOrderStatus orderWorld "1" (some "completed")).1) =
        [⟨"inventory_events", "inventory.confirmed", Payload.inventory 1 2 1⟩,
         ⟨"inventory_events", "inventory.confirmed", Payload.inventory 2 3 1⟩] :=
  ⟨by decide, by decide, by decide,
    (C3_confirmed_once_per_item_on_first_completion orderWorld "1" 1 shopOrder
      (by decide) (by decide) (by decide)).1 (by decide)⟩

/-- C4: a status update of an existing order while the channel is available publishes,
when the target status is `cancelled` and the previous status is neither `cancelled` nor
`completed`, exactly the `inventory.restored` messages of the order items, one per item,
each with the productId and quantity of its item and the id of the order; when the
previous status is `cancelled` or `completed`, or the target status is not `cancelled`,
it publishes no `inventory.restored` message. -/
theorem C4_restored_once_per_item_on_first_cancellation (w : World ν) (idParam : String)
    (orderId : Int) (order : Order ν) (hid : parseInt (JSId.str idParam) = some orderId)
    (hfind : prisma.order.findUnique w orderId = some order)
    (hopen : channelOpen w = true) :
    (order.status ≠ "cancelled" → order.status ≠ "completed" →
      publishedWith "inventory.restored"
          (emitted w (updateOrderStatus w idParam (some "cancelled")).1) =
        order.items.map (fun item =>
          ⟨"inventory_events", "inventory.restored",
            Payload.inventory item.productId item.quantity order.id⟩)) ∧
    (∀ st : Option String,
      order.status = "cancelled" ∨ order.status = "completed" ∨ st ≠ some "cancelled" →
      publishedWith "inventory.restored" (emitted w (updateOrderStatus w idParam st).1) = []) := by
  constructor
  · intro h1 h2
    rw [updateOrderStatus_restored w idParam _ orderId order hid hfind]
    simp [hopen, h1, h2, inventoryMessage]
  · intro st h
    rw [updateOrderStatus_restored w idParam _ orderId order hid hfind]
    rcases h with h | h | h <;> simp [h]

/-- C4 on a processing order with two items: cancelling it publishes two restorations. -/
theorem C4_restored_witness :
    parseInt (JSId.str "1") = some 1 ∧
      prisma.order.findUnique orderWorld 1 = some shopOrder ∧
      channelOpen orderWorld = true ∧
      publishedWith "inventory.restored"
          (emitted orderWorld (updateOrderStatus orderWorld "1" (some "cancelled")).1) =
        [⟨"inventory_events", "inventory.restored", Payload.inventory 1 2 1⟩,
         ⟨"inventory_events", "inventory.restored", Payload.inventory 2 3 1⟩] :=
  ⟨by decide, by decide, by decide,
    (C4_restored_once_per_item_on_first_cancellation orderWorld "1" 1 shopOrder
      (by decide) (by decide) (by decide)).1 (by decide) (by decide)⟩

/-- C5 fails as stated: the processing order is completed, then set to `shipped`, then
cancelled; the order was `completed` after the first update, and the third update
publishes the `inventory.restored` messages of both items. -/
theorem C5_restored_after_leaving_completed :
    (prisma.order.findUnique (applyStatusUpdates orderWorld "1" [some "completed"]) 1).map
        (fun o => o.status) = some "completed" ∧
      publishedWith "inventory.restored"
          (emitted (applyStatusUpdates orderWorld "1" [some "completed", some "shipped"])
            (updateOrderStatus
              (applyStatusUpdates orderWorld "1" [some "completed", some "shipped"])
              "1" (some "cancelled")).1) =
        [⟨"inventory_events", "inventory.restored", Payload.inventory 1 2 1⟩,
         ⟨"inventory_events", "inventory.restored", Payload.inventory 2 3 1⟩] := by
  decide

/-- C5 (amended): after any sequence of status updates, a status update applied to an
order whose status at that moment is `completed` publishes no `inventory.restored`
message, whatever the request and the state of the channel. -/
theorem C5_no_restored_while_completed (w : World ν) (idParam : String)
    (earlier : List (Option String)) (st : Option String) (orderId : Int) (order : Order ν)
    (hid : parseInt (JSId.str idParam) = some orderId)
    (hfind : prisma.order.findUnique (applyStatusUpdates w idParam earlier) orderId =
      some order)
    (hdone : order.status = "completed") :
    publishedWith "inventory.restored"
        (emitted (applyStatusUpdates w idParam earlier)
          (updateOrderStatus (applyStatusUpdates w idParam earlier) idParam st).1) = [] := by
  rw [updateOrderStatus_restored _ idParam st orderId order hid hfind]
  simp [hdone]

/-- C5 (amended) on the order completed by an earlier update: cancelling it right away
restores nothing. -/
theorem C5_no_restored_witness :
    parseInt (JSId.str "1") = some 1 ∧
      prisma.order.findUnique (applyStatusUpdates orderWorld "1" [some "completed"]) 1 =
        some { shopOrder with status := "completed" } ∧
      publishedWith "inventory.restored"
        (emitted (applyStatusUpdates orderWorld "1" [some "completed"])
          (updateOrderStatus (applyStatusUpdates orderWorld "1" [some "completed"]) "1"
            (some "cancelled")).1) = [] :=
  ⟨by decide, by decide,
    C5_no_restored_while_completed orderWorld "1" [some "completed"] (some "cancelled") 1
      { shopOrder with status := "completed" } (by decide) (by decide) (by decide)⟩

/-- C6 fails as stated: the processing order is cancelled and then completed; the order
was `cancelled` after the first update, and the second update publishes the
`inventory.confirmed` messages of both items. -/
theorem C6_confirmed_after_cancelled :
    (prisma.order.findUnique (applyStatusUpdates orderWorld "1" [some "cancelled"]) 1).map
        (fun o => o.status) = some "cancelled" ∧
      publishedWith "inventory.confirmed"
          (emitted (applyStatusUpdates orderWorld "1" [some "cancelled"])
            (updateOrderStatus (applyStatusUpdates orderWorld "1" [some "cancelled"])
              "1" (some "completed")).1) =
        [⟨"inventory_events", "inventory.confirmed", Payload.inventory 1 2 1⟩,
         ⟨"inventory_events", "inventory.confirmed", Payload.inventory 2 3 1⟩] := by
  decide

/-- C6 (amended): after any sequence of status updates (in particular after one that
cancelled the order), a status update whose target status is not `completed` publishes
no `inventory.confirmed` message, whatever the order and the state of the channel. -/
theorem C6_no_confirmed_unless_target_completed (w : World ν) (idParam : String)
    (earlier : List (Option String)) (st : Option String) (hst : st ≠ some "completed") :
    publishedWith "inventory.confirmed"
        (emitted (applyStatusUpdates w idParam earlier)
          (updateOrderStatus (applyStatusUpdates w idParam earlier) idParam st).1) = [] := by
  generalize applyStatusUpdates w idParam earlier = w1
  by_cases h : ∀ orderId, parseInt (JSId.str idParam) = some orderId →
      prisma.order.findUnique w1 orderId = none
  · rw [updateOrderStatus_not_found w1 idParam st h, emitted_self]
    rfl
  · push_neg at h
    obtain ⟨orderId, hid, hfind⟩ := h
    obtain ⟨order, hfind⟩ := Option.ne_none_iff_exists'.mp hfind
    rw [updateOrderStatus_confirmed w1 idParam st orderId order hid hfind]
    simp [hst]

/-- C6 (amended) on the cancelled order: shipping it confirms nothing. -/
theorem C6_no_confirmed_witness :
    (some "shipped" : Option String) ≠ some "completed" ∧
      publishedWith "inventory.confirmed"
        (emitted (applyStatusUpdates orderWorld "1" [some "cancelled"])
          (updateOrderStatus (applyStatusUpdates orderWorld "1" [some "cancelled"]) "1"
            (some "shipped")).1) = [] :=
  ⟨by decide,
    C6_no_confirmed_unless_target_completed orderWorld "1" [some "cancelled"]
      (some "shipped") (by decide)⟩

theorem delete_trace (w w1 : World ν) (id : Int) (h : prisma.order.delete w id = some w1) :
    w1.trace = w.trace ++ [Effect.orderDelete id] ∧ w1.rabbitChannel = w.rabbitChannel ∧
      w1.orders = w.orders.filter (fun o => !decide (o.id = id)) := by
  unfold prisma.order.delete at h
  split at h
  · simp at h
  · simp only [Option.some.injEq] at h
    subst h
    exact ⟨rfl, rfl, rfl⟩

theorem delete_isSome (w : World ν) (id : Int) (o : Order ν)
    (h : prisma.order.findUnique w id = some o) :
    ∃ w1, prisma.order.delete w id = some w1 := by
  unfold prisma.order.delete
  rw [h]
  exact ⟨_, rfl⟩

/-- Effects of `DELETE /:id` on an existing order. -/
theorem deleteOrder_trace (w : World ν) (idParam : String) (orderId : Int) (order : Order ν)
    (hid : parseInt (JSId.str idParam) = some orderId)
    (hfind : prisma.order.findUnique w orderId = some order) :
    emitted w (deleteOrder w idParam).1 =
      Effect.orderDelete orderId ::
        (if channelOpen w = true then
          Effect.published ⟨"order_events", "order.deleted",
              Payload.orderDeleted order.id order.userId⟩ ::
            (if order.status ≠ "completed" ∧ order.status ≠ "cancelled" then
              order.items.map
                (fun it => Effect.published (inventoryMessage "inventory.restored" order.id it))
            else [])
        else []) := by
  apply emitted_append
  obtain ⟨w1, hdel⟩ := delete_isSome w orderId order hfind
  obtain ⟨htr, hch, -⟩ := delete_trace w w1 orderId hdel
  unfold deleteOrder
  simp only [hid, hfind, hdel]
  unfold channelOpen
  rw [← hch]
  cases hc : w1.rabbitChannel with
  | none => simp [htr]
  | some c =>
    simp only []
    by_cases h1 : order.status ≠ "completed" ∧ order.status ≠ "cancelled"
    · rw [if_pos h1, if_pos h1]
      simp only [publishInventory_trace, publishToExchange_trace, htr]
      by_cases hcl : c.closed = true <;> simp [hcl]
    · rw [if_neg h1, if_neg h1]
      simp only [publishToExchange_trace, htr]
      by_cases hcl : c.closed = true <;> simp [hcl]

/-- After `DELETE /:id` on an existing order no row of the store has that id. -/
theorem deleteOrder_removes (w : World ν) (idParam : String) (orderId : Int) (order : Order ν)
    (hid : parseInt (JSId.str idParam) = some orderId)
    (hfind : prisma.order.findUnique w orderId = some order) :
    prisma.order.findUnique (deleteOrder w idParam).1 orderId = none := by
  obtain ⟨w1, hdel⟩ := delete_isSome w orderId order hfind
  obtain ⟨-, -, hord⟩ := delete_trace w w1 orderId hdel
  have hw : (deleteOrder w idParam).1.orders = w1.orders := by
    unfold deleteOrder
    simp only [hid, hfind, hdel]
    split
    · rfl
    · split <;> simp [publishInventory_orders, publishToExchange_orders]
  unfold prisma.order.findUnique
  rw [hw, hord]
  simp [List.find?_eq_none]

/-- C7: the deletion of an existing order while the channel is available publishes, when
the order is neither `completed` nor `cancelled`, exactly the `inventory.restored`
messages of the order items, one per item, each with the productId and quantity of its
item and the id of the order; when the order is `completed` or `cancelled`, it publishes
no `inventory.restored` message. -/
theorem C7_deletion_restores_items_of_open_orders (w : World ν) (idParam : String)
    (orderId : Int) (order : Order ν) (hid : parseInt (JSId.str idParam) = some orderId)
    (hfind : prisma.order.findUnique w orderId = some order)
    (hopen : channelOpen w = true) :
    (order.status ≠ "completed" → order.status ≠ "cancelled" →
      publishedWith "inventory.restored" (emitted w (deleteOrder w idParam).1) =
        order.items.map (fun item =>
          ⟨"inventory_events", "inventory.restored",
            Payload.inventory item.productId item.quantity order.id⟩)) ∧
    (order.status = "completed" ∨ order.status = "cancelled" →
      publishedWith "inventory.restored" (emitted w (deleteOrder w idParam).1) = []) := by
  have hk : ¬("order.deleted" = "inventory.restored") := by decide
  rw [deleteOrder_trace w idParam orderId order hid hfind]
  simp only [hopen, if_true, publishedWith_cons_orderDelete, publishedWith_cons_published, hk,
    if_false, apply_ite (publishedWith "inventory.restored"), publishedWith_inventory,
    publishedWith_nil]
  constructor
  · intro h1 h2
    simp [h1, h2, inventoryMessage]
  · intro h
    rcases h with h | h <;> simp [h]

/-- C7 on a processing order with two items: deleting it publishes two restorations. -/
theorem C7_deletion_witness :
    parseInt (JSId.str "1") = some 1 ∧
      prisma.order.findUnique orderWorld 1 = some shopOrder ∧
      channelOpen orderWorld = true ∧
      publishedWith "inventory.restored" (emitted orderWorld (deleteOrder orderWorld "1").1) =
        [⟨"inventory_events", "inventory.restored", Payload.inventory 1 2 1⟩,
         ⟨"inventory_events", "inventory.restored", Payload.inventory 2 3 1⟩] :=
  ⟨by decide, by decide, by decide,
    (C7_deletion_restores_items_of_open_orders orderWorld "1" 1 shopOrder
      (by decide) (by decide) (by decide)).1 (by decide) (by decide)⟩

/-- C8 fails as stated: deleting the processing order removes the row first; nothing is
performed before the removal, and both `inventory.restored` messages are published after
it. -/
theorem C8_restored_published_after_removal :
    beforeDelete 1 (emitted orderWorld (deleteOrder orderWorld "1").1) = [] ∧
      publishedWith "inventory.restored"
          (afterDelete 1 (emitted orderWorld (deleteOrder orderWorld "1").1)) =
        [⟨"inventory_events", "inventory.restored", Payload.inventory 1 2 1⟩,
         ⟨"inventory_events", "inventory.restored", Payload.inventory 2 3 1⟩] := by
  decide

/-- C8 (amended): the deletion of an existing order that is neither `completed` nor
`cancelled`, while the channel is available, first removes the row, then publishes
`order.deleted`, then the `inventory.restored` messages of the items, built from the row
read before the removal; no `inventory.restored` message precedes the removal, and when
they are published no row of the store has the id of the order. -/
theorem C8_deletion_removes_then_restores (w : World ν) (idParam : String)
    (orderId : Int) (order : Order ν) (hid : parseInt (JSId.str idParam) = some orderId)
    (hfind : prisma.order.findUnique w orderId = some order)
    (hopen : channelOpen w = true)
    (h1 : order.status ≠ "completed") (h2 : order.status ≠ "cancelled") :
    emitted w (deleteOrder w idParam).1 =
        Effect.orderDelete orderId ::
          Effect.published ⟨"order_events", "order.deleted",
            Payload.orderDeleted order.id order.userId⟩ ::
          order.items.map (fun item => Effect.published
            ⟨"inventory_events", "inventory.restored",
              Payload.inventory item.productId item.quantity order.id⟩) ∧
      publishedWith "inventory.restored"
          (beforeDelete orderId (emitted w (deleteOrder w idParam).1)) = [] ∧
      publishedWith "inventory.restored"
          (afterDelete orderId (emitted w (deleteOrder w idParam).1)) =
        order.items.map (fun item =>
          ⟨"inventory_events", "inventory.restored",
            Payload.inventory item.productId item.quantity order.id⟩) ∧
      prisma.order.findUnique (deleteOrder w idParam).1 orderId = none := by
  have hk : ¬("order.deleted" = "inventory.restored") := by decide
  have htrace := deleteOrder_trace w idParam orderId order hid hfind
  simp only [hopen, if_true, h1, h2, ne_eq, not_false_eq_true, and_self] at htrace
  refine ⟨?_, ?_, ?_, deleteOrder_removes w idParam orderId order hid hfind⟩
  · rw [htrace]; rfl
  · rw [htrace]; simp [beforeDelete, publishedWith_nil]
  · rw [htrace]
    simp only [afterDelete, if_true, publishedWith_cons_published, hk, if_false,
      publishedWith_inventory]
    rfl

/-- C8 (amended) on a processing order with two items. -/
theorem C8_deletion_order_witness :
    parseInt (JSId.str "1") = some 1 ∧
      prisma.order.findUnique orderWorld 1 = some shopOrder ∧
      channelOpen orderWorld = true ∧
      shopOrder.status ≠ "completed" ∧ shopOrder.status ≠ "cancelled" ∧
      emitted orderWorld (deleteOrder orderWorld "1").1 =
        [Effect.orderDelete 1,
         Effect.published ⟨"order_events", "order.deleted", Payload.orderDeleted 1 1⟩,
         Effect.published ⟨"inventory_events", "inventory.restored", Payload.inventory 1 2 1⟩,
         Effect.published ⟨"inventory_events", "inventory.restored", Payload.inventory 2 3 1⟩] :=
  ⟨by decide, by decide, by decide, by decide, by decide,
    (C8_deletion_removes_then_restores orderWorld "1" 1 shopOrder
      (by decide) (by decide) (by decide) (by decide) (by decide)).1⟩

/-! ## Reconciler -/

theorem statusNotIn_terminal (o : Order ν) :
    statusNotIn ["completed", "cancelled"] o = true ↔ ¬isTerminal o := by
  unfold statusNotIn isTerminal
  simp [List.contains_cons]

theorem forall₂_map_self {α : Type} (R : α → α → Prop) (f : α → α) (l : List α)
    (h : ∀ x ∈ l, R x (f x)) : List.Forall₂ R l (l.map f) := by
  induction l with
  | nil => exact List.Forall₂.nil
  | cons a l ih =>
    exact List.Forall₂.cons (h a (List.mem_cons_self a l))
      (ih (fun x hx => h x (List.mem_cons_of_mem a hx)))

/-- C9: on `user.deleted` for user `u`, every order of `u` that was neither `completed`
nor `cancelled` gets status `affected`, the note `User account has been deleted` and
`userDeleted = true` (its other columns are kept), and every other order is unchanged. -/
theorem C9_user_deleted_marks_open_orders_of_user (w : World ν) (data : UserEventData)
    (u : Int) (hu : parseInt data.userId = some u) :
    List.Forall₂
      (fun o o1 =>
        (o.userId = u ∧ ¬isTerminal o →
          o1 = { o with status := "affected",
                        statusNote := some "User account has been deleted",
                        userDeleted := true }) ∧
        (¬(o.userId = u ∧ ¬isTerminal o) → o1 = o))
      w.orders (handleUserEvent w data "user.deleted").orders := by
  unfold handleUserEvent
  simp only [if_true, hu, prisma.order.updateMany]
  apply forall₂_map_self
  intro o _
  by_cases hc : o.userId = u ∧ ¬isTerminal o
  · have hc1 : o.userId = u ∧ statusNotIn ["completed", "cancelled"] o = true :=
      ⟨hc.1, (statusNotIn_terminal o).mpr hc.2⟩
    rw [if_pos hc1]
    exact ⟨fun _ => rfl, fun h => absurd hc h⟩
  · have hc1 : ¬(o.userId = u ∧ statusNotIn ["completed", "cancelled"] o = true) :=
      fun h => hc ⟨h.1, (statusNotIn_terminal o).mp h.2⟩
    rw [if_neg hc1]
    exact ⟨fun h => absurd h hc, fun _ => rfl⟩

/-- C9 on the deletion of user 7: the two open orders of user 7 are marked, the completed
one and the order of user 8 are as before. -/
theorem C9_user_deleted_witness :
    parseInt (JSId.str "7") = some 7 ∧
      (handleUserEvent reconcilerWorld ⟨JSId.str "7"⟩ "user.deleted").orders =
        [{ id := 1, userId := 7, totalAmount := 10, status := "affected",
           statusNote := some "User account has been deleted", userDeleted := true,
           items := [⟨101, 1, "Widget", 10⟩, ⟨101, 2, "Widget", 10⟩] },
         { id := 2, userId := 7, totalAmount := 20, status := "affected",
           statusNote := some "User account has been deleted", userDeleted := true,
           items := [⟨102, 1, "Gadget", 20⟩] },
         { id := 3, userId := 7, totalAmount := 10, status := "completed", statusNote := none,
           userDeleted := false, items := [⟨101, 1, "Widget", 10⟩] },
         { id := 4, userId := 8, totalAmount := 10, status := "pending", statusNote := none,
           userDeleted := false, items := [⟨101, 1, "Widget", 10⟩] }] ∧
      List.Forall₂
        (fun o o1 =>
          (o.userId = 7 ∧ ¬isTerminal o →
            o1 = { o with status := "affected",
                          statusNote := some "User account has been deleted",
                          userDeleted := true }) ∧
          (¬(o.userId = 7 ∧ ¬isTerminal o) → o1 = o))
        reconcilerWorld.orders
        (handleUserEvent reconcilerWorld ⟨JSId.str "7"⟩ "user.deleted").orders :=
  ⟨by decide, by decide,
    C9_user_deleted_marks_open_orders_of_user reconcilerWorld ⟨JSId.str "7"⟩ 7 (by decide)⟩

theorem OrderPatch.apply_apply (d : OrderPatch) (o : Order ν) :
    d.apply (d.apply o) = d.apply o := by
  cases d with
  | mk s n u => cases s <;> cases n <;> cases u <;> rfl

theorem findUnique_of_mem (w : World ν) (id : Int) (h : ∃ o ∈ w.orders, o.id = id) :
    ∃ o, prisma.order.findUnique w id = some o := by
  unfold prisma.order.findUnique
  cases hf : w.orders.find? (fun o => decide (o.id = id)) with
  | some o => exact ⟨o, rfl⟩
  | none =>
    obtain ⟨o, ho, hid⟩ := h
    have := List.find?_eq_none.mp hf o ho
    simp [hid] at this

/-- The store after the update loop of `handleProductEvent`, when every id in the list is
the id of a stored order: the listed orders are patched, the others are kept. -/
theorem markAffected_orders (d : OrderPatch) (ids : List Int) :
    ∀ w : World ν, (∀ id ∈ ids, ∃ o ∈ w.orders, o.id = id) →
      (markAffected d w ids).orders =
        w.orders.map (fun o => if o.id ∈ ids then d.apply o else o) := by
  induction ids with
  | nil => intro w _; simp [markAffected]
  | cons id rest ih =>
    intro w h
    obtain ⟨o, hfind⟩ := findUnique_of_mem w id (h id (List.mem_cons_self id rest))
    obtain ⟨w1, hupd⟩ := update_isSome w id d o hfind
    obtain ⟨-, -, hord⟩ := update_trace w w1 id d _ hupd
    rw [markAffected, hupd]
    simp only []
    rw [ih w1, hord, List.map_map]
    · apply List.map_congr_left
      intro x _
      simp only [Function.comp]
      have h1 : (d.apply x).id = x.id := rfl
      by_cases hx : x.id = id <;> by_cases hr : x.id ∈ rest <;>
        simp [hx, hr, h1, OrderPatch.apply_apply]
    · intro i hi
      obtain ⟨x, hx, hxi⟩ := h i (List.mem_cons_of_mem id hi)
      rw [hord]
      refine ⟨_, List.mem_map_of_mem _ hx, ?_⟩
      by_cases hx1 : x.id = id
      · rw [if_pos hx1]; exact hxi
      · rw [if_neg hx1]; exact hxi

theorem mem_findMany (w : World ν) (p i : Int) :
    i ∈ prisma.orderItem.findMany w p ["completed", "cancelled"] ↔
      ∃ o ∈ w.orders, ¬isTerminal o ∧ (∃ item ∈ o.items, item.productId = p) ∧ o.id = i := by
  unfold prisma.orderItem.findMany
  simp only [List.mem_flatMap, List.mem_filter, List.mem_map, statusNotIn_terminal,
    decide_eq_true_eq]
  constructor
  · rintro ⟨o, ⟨ho, hnt⟩, item, ⟨hitem, hp⟩, hi⟩
    exact ⟨o, ho, hnt, ⟨item, hitem, hp⟩, hi⟩
  · rintro ⟨o, ho, hnt, ⟨item, hitem, hp⟩, hi⟩
    exact ⟨o, ⟨ho, hnt⟩, item, ⟨hitem, hp⟩, hi⟩

/-- C10: on `product.deleted` for product `p` named `n`, in a store whose order ids are
unique, every order that has an item with `productId = p` and was neither `completed` nor
`cancelled` gets status `affected` and the note `Product n is no longer available` (its
other columns are kept), and every other order is unchanged. -/
theorem C10_product_deleted_marks_open_orders_with_product (w : World ν)
    (data : ProductEventData) (p : Int) (hp : parseInt data.productId = some p)
    (hkey : (w.orders.map (fun o => o.id)).Nodup) :
    List.Forall₂
      (fun o o1 =>
        ((∃ item ∈ o.items, item.productId = p) ∧ ¬isTerminal o →
          o1 = { o with status := "affected",
                        statusNote := some
                          ("Product " ++ data.productName ++ " is no longer available") }) ∧
        (¬((∃ item ∈ o.items, item.productId = p) ∧ ¬isTerminal o) → o1 = o))
      w.orders (handleProductEvent w data "product.deleted").orders := by
  unfold handleProductEvent
  simp only [if_true, hp]
  rw [markAffected_orders]
  · apply forall₂_map_self
    intro o ho
    have hiff : o.id ∈ prisma.orderItem.findMany w p ["completed", "cancelled"] ↔
        ((∃ item ∈ o.items, item.productId = p) ∧ ¬isTerminal o) := by
      rw [mem_findMany]
      constructor
      · rintro ⟨o2, ho2, hnt, hitem, hid⟩
        have : o2 = o := List.inj_on_of_nodup_map hkey ho2 ho hid
        subst this
        exact ⟨hitem, hnt⟩
      · rintro ⟨hitem, hnt⟩
        exact ⟨o, ho, hnt, hitem, rfl⟩
    by_cases hc : (∃ item ∈ o.items, item.productId = p) ∧ ¬isTerminal o
    · rw [if_pos (hiff.mpr hc)]
      exact ⟨fun _ => rfl, fun h => absurd hc h⟩
    · rw [if_neg (fun h => hc (hiff.mp h))]
      exact ⟨fun h => absurd h hc, fun _ => rfl⟩
  · intro i hi
    obtain ⟨o, ho, -, -, hid⟩ := (mem_findMany w p i).mp hi
    exact ⟨o, ho, hid⟩

/-- C10 on the deletion of product 101 named Widget: orders 1 and 4 are marked, the
shipped order without the product and the completed order are as before. -/
theorem C10_product_deleted_witness :
    parseInt (JSId.str "101") = some 101 ∧
      (reconcilerWorld.orders.map (fun o => o.id)).Nodup ∧
      (handleProductEvent reconcilerWorld ⟨JSId.str "101", "Widget"⟩ "product.deleted").orders =
        [{ id := 1, userId := 7, totalAmount := 10, status := "affected",
           statusNote := some "Product Widget is no longer available", userDeleted := false,
           items := [⟨101, 1, "Widget", 10⟩, ⟨101, 2, "Widget", 10⟩] },
         { id := 2, userId := 7, totalAmount := 20, status := "shipped", statusNote := none,
           userDeleted := false, items := [⟨102, 1, "Gadget", 20⟩] },
         { id := 3, userId := 7, totalAmount := 10, status := "completed", statusNote := none,
           userDeleted := false, items := [⟨101, 1, "Widget", 10⟩] },
         { id := 4, userId := 8, totalAmount := 10, status := "affected",
           statusNote := some "Product Widget is no longer available", userDeleted := false,
           items := [⟨101, 1, "Widget", 10⟩] }] ∧
      List.Forall₂
        (fun o o1 =>
          ((∃ item ∈ o.items, item.productId = 101) ∧ ¬isTerminal o →
            o1 = { o with status := "affected",
                          statusNote := some
                            ("Product " ++ "Widget" ++ " is no longer available") }) ∧
          (¬((∃ item ∈ o.items, item.productId = 101) ∧ ¬isTerminal o) → o1 = o))
        reconcilerWorld.orders
        (handleProductEvent reconcilerWorld ⟨JSId.str "101", "Widget"⟩
          "product.deleted").orders :=
  ⟨by decide, by decide, by decide,
    C10_product_deleted_marks_open_orders_with_product reconcilerWorld
      ⟨JSId.str "101", "Widget"⟩ 101 (by decide) (by decide)⟩

/-! ## Reconciler: number of updates and replays -/

/-- The log after the update loop of `handleProductEvent`, when every id in the list is
the id of a stored order: one update per element of the list, in order. -/
theorem markAffected_trace (d : OrderPatch) (ids : List Int) :
    ∀ w : World ν, (∀ id ∈ ids, ∃ o ∈ w.orders, o.id = id) →
      (markAffected d w ids).trace = w.trace ++ ids.map (fun id => Effect.orderUpdate id d) := by
  induction ids with
  | nil => intro w _; simp [markAffected]
  | cons id rest ih =>
    intro w h
    obtain ⟨o, hfind⟩ := findUnique_of_mem w id (h id (List.mem_cons_self id rest))
    obtain ⟨w1, hupd⟩ := update_isSome w id d o hfind
    obtain ⟨htr, -, hord⟩ := update_trace w w1 id d _ hupd
    rw [markAffected, hupd]
    simp only []
    rw [ih w1, htr]
    · simp
    · intro i hi
      obtain ⟨x, hx, hxi⟩ := h i (List.mem_cons_of_mem id hi)
      rw [hord]
      refine ⟨_, List.mem_map_of_mem _ hx, ?_⟩
      by_cases hx1 : x.id = id
      · rw [if_pos hx1]; exact hxi
      · rw [if_neg hx1]; exact hxi

theorem updateCount_map (id : Int) (d : OrderPatch) (ids : List Int) :
    updateCount id (ids.map (fun i => (Effect.orderUpdate i d : Effect ν))) = ids.count id := by
  unfold updateCount
  induction ids with
  | nil => rfl
  | cons i rest ih =>
    by_cases h : i = id
    · simp [List.filter_cons, h] at ih ⊢
      exact ih
    · simp [List.filter_cons, h, List.count_cons] at ih ⊢
      exact ih

theorem count_findMany_aux (p : Int) (l : List (Order ν))
    (hkey : (l.map (fun o => o.id)).Nodup) (o : Order ν) (ho : o ∈ l) :
    (((l.filter (statusNotIn ["completed", "cancelled"])).flatMap
      (fun x => (x.items.filter (fun i => decide (i.productId = p))).map (fun _ => x.id))).count
        o.id) =
      if isTerminal o then 0
      else (o.items.filter (fun i => decide (i.productId = p))).length := by
  induction l with
  | nil => simp at ho
  | cons a rest ih =>
    rw [List.map_cons, List.nodup_cons] at hkey
    obtain ⟨hnot, hnodup⟩ := hkey
    have hrest : ∀ x ∈ rest, x.id ≠ a.id := by
      intro x hx hxa
      exact hnot (hxa ▸ List.mem_map_of_mem (fun o => o.id) hx)
    have hzero : ((rest.filter (statusNotIn ["completed", "cancelled"])).flatMap
        (fun x => (x.items.filter (fun i => decide (i.productId = p))).map
          (fun _ => x.id))).count a.id = 0 := by
      apply List.count_eq_zero_of_not_mem
      simp only [List.mem_flatMap, List.mem_filter, List.mem_map]
      rintro ⟨x, ⟨hx, -⟩, -, -, hxa⟩
      exact hrest x hx hxa
    rcases List.mem_cons.mp ho with rfl | hmem
    · by_cases ht : isTerminal o
      · have hf : statusNotIn ["completed", "cancelled"] o = false := by
          cases hs : statusNotIn ["completed", "cancelled"] o with
          | false => rfl
          | true => exact absurd ht ((statusNotIn_terminal o).mp hs)
        rw [List.filter_cons, hf]
        simp only [Bool.false_eq_true, if_false, if_pos ht]
        exact hzero
      · have hf : statusNotIn ["completed", "cancelled"] o = true :=
          (statusNotIn_terminal o).mpr ht
        rw [List.filter_cons, hf]
        simp only [if_true, List.flatMap_cons, List.count_append, hzero, if_neg ht,
          Nat.add_zero]
        generalize (o.items.filter (fun i => decide (i.productId = p))) = its
        induction its with
        | nil => rfl
        | cons i r ihr => simp [List.count_cons, ihr]
    · have hne : o.id ≠ a.id := hrest o hmem
      have hhead : ((a.items.filter (fun i => decide (i.productId = p))).map
          (fun _ => a.id)).count o.id = 0 := by
        apply List.count_eq_zero_of_not_mem
        simp only [List.mem_map]
        rintro ⟨_, -, h⟩
        exact hne h.symm
      rw [List.filter_cons]
      split
      · rw [List.flatMap_cons, List.count_append, hhead, Nat.zero_add]
        exact ih hnodup hmem
      · exact ih hnodup hmem

/-- C11 fails as stated: order 1 of the store has two items of product 101, and the
deletion of product 101 issues two updates of order 1. -/
theorem C11_two_matching_items_two_updates :
    updateCount 1 (emitted reconcilerWorld
      (handleProductEvent reconcilerWorld ⟨JSId.str "101", "Widget"⟩ "product.deleted")) = 2 := by
  decide

/-- C11 (amended): on `product.deleted` for product `p`, in a store whose order ids are
unique, the handler issues one update per matching order item: every update carries the
same data, and a stored order that is neither `completed` nor `cancelled` receives as
many updates as it has items with `productId = p`, a `completed` or `cancelled` order
none. -/
theorem C11_one_update_per_matching_item (w : World ν) (data : ProductEventData) (p : Int)
    (hp : parseInt data.productId = some p)
    (hkey : (w.orders.map (fun o => o.id)).Nodup) :
    emitted w (handleProductEvent w data "product.deleted") =
        (prisma.orderItem.findMany w p ["completed", "cancelled"]).map
          (fun id => Effect.orderUpdate id (productDeletedPatch data.productName)) ∧
      ∀ o ∈ w.orders,
        updateCount o.id (emitted w (handleProductEvent w data "product.deleted")) =
          if isTerminal o then 0
          else (o.items.filter (fun i => decide (i.productId = p))).length := by
  have htrace : emitted w (handleProductEvent w data "product.deleted") =
      (prisma.orderItem.findMany w p ["completed", "cancelled"]).map
        (fun id => Effect.orderUpdate id (productDeletedPatch data.productName)) := by
    apply emitted_append
    unfold handleProductEvent
    simp only [if_true, hp]
    rw [markAffected_trace]
    · rfl
    · intro i hi
      obtain ⟨o, ho, -, -, hid⟩ := (mem_findMany w p i).mp hi
      exact ⟨o, ho, hid⟩
  refine ⟨htrace, ?_⟩
  intro o ho
  rw [htrace, updateCount_map]
  exact count_findMany_aux p w.orders hkey o ho

/-- C11 (amended) on the deletion of product 101: order 1, with two such items, gets two
updates; the completed order 3 gets none. -/
theorem C11_one_update_per_item_witness :
    parseInt (JSId.str "101") = some 101 ∧
      (reconcilerWorld.orders.map (fun o => o.id)).Nodup ∧
      emitted reconcilerWorld
          (handleProductEvent reconcilerWorld ⟨JSId.str "101", "Widget"⟩ "product.deleted") =
        [Effect.orderUpdate 1 (productDeletedPatch "Widget"),
         Effect.orderUpdate 1 (productDeletedPatch "Widget"),
         Effect.orderUpdate 4 (productDeletedPatch "Widget")] :=
  ⟨by decide, by decide,
    (C11_one_update_per_matching_item reconcilerWorld ⟨JSId.str "101", "Widget"⟩ 101
      (by decide) (by decide)).1⟩

theorem handleUserEvent_replay (w : World ν) (data : UserEventData) (key : String) :
    (handleUserEvent (handleUserEvent w data key) data key).orders =
      (handleUserEvent w data key).orders := by
  unfold handleUserEvent
  by_cases hk : key = "user.deleted"
  · simp only [hk, if_true]
    cases hu : parseInt data.userId with
    | none => simp only [hu]
    | some u =>
      simp only [hu, prisma.order.updateMany, List.map_map]
      apply List.map_congr_left
      intro o _
      simp only [Function.comp]
      by_cases hc : o.userId = u ∧ statusNotIn ["completed", "cancelled"] o = true
      · rw [if_pos hc]
        have hc1 : (OrderPatch.apply
            { status := some "affected", statusNote := some "User account has been deleted",
              userDeleted := some true } o).userId = u ∧
            statusNotIn ["completed", "cancelled"] (OrderPatch.apply
              { status := some "affected", statusNote := some "User account has been deleted",
                userDeleted := some true } o) = true := ⟨hc.1, by simp [statusNotIn, OrderPatch.apply]⟩
        rw [if_pos hc1, OrderPatch.apply_apply]
      · rw [if_neg hc, if_neg hc]
  · simp only [hk, if_false]

theorem handleProductEvent_result (w : World ν) (data : ProductEventData) (p : Int)
    (hp : parseInt data.productId = some p) :
    (handleProductEvent w data "product.deleted").orders =
        w.orders.map (fun o =>
          if o.id ∈ prisma.orderItem.findMany w p ["completed", "cancelled"] then
            (productDeletedPatch data.productName).apply o
          else o) ∧
      (handleProductEvent w data "product.deleted").trace =
        w.trace ++ (prisma.orderItem.findMany w p ["completed", "cancelled"]).map
          (fun id => Effect.orderUpdate id (productDeletedPatch data.productName)) := by
  have hex : ∀ i ∈ prisma.orderItem.findMany w p ["completed", "cancelled"],
      ∃ o ∈ w.orders, o.id = i := by
    intro i hi
    obtain ⟨o, ho, -, -, hid⟩ := (mem_findMany w p i).mp hi
    exact ⟨o, ho, hid⟩
  unfold handleProductEvent
  simp only [if_true, hp]
  exact ⟨markAffected_orders _ _ w hex, markAffected_trace _ _ w hex⟩

theorem findMany_replay (w : World ν) (data : ProductEventData) (p : Int)
    (hp : parseInt data.productId = some p) (i : Int) :
    i ∈ prisma.orderItem.findMany (handleProductEvent w data "product.deleted") p
        ["completed", "cancelled"] ↔
      i ∈ prisma.orderItem.findMany w p ["completed", "cancelled"] := by
  have hord := (handleProductEvent_result w data p hp).1
  constructor
  · intro hi
    obtain ⟨x, hx, hnt, hitem, hid⟩ := (mem_findMany _ p i).mp hi
    rw [hord, List.mem_map] at hx
    obtain ⟨o, ho, hxo⟩ := hx
    by_cases hmem : o.id ∈ prisma.orderItem.findMany w p ["completed", "cancelled"]
    · rw [if_pos hmem] at hxo
      have : x.id = o.id := by rw [← hxo]; rfl
      rw [← hid, this]
      exact hmem
    · rw [if_neg hmem] at hxo
      subst hxo
      exact (mem_findMany w p i).mpr ⟨o, ho, hnt, hitem, hid⟩
  · intro hi
    obtain ⟨o, ho, hnt, hitem, hid⟩ := (mem_findMany w p i).mp hi
    have hmem : o.id ∈ prisma.orderItem.findMany w p ["completed", "cancelled"] := hid ▸ hi
    refine (mem_findMany _ p i).mpr ⟨(productDeletedPatch data.productName).apply o, ?_, ?_,
      hitem, hid⟩
    · rw [hord, List.mem_map]
      exact ⟨o, ho, by rw [if_pos hmem]⟩
    · unfold isTerminal productDeletedPatch OrderPatch.apply
      simp

theorem handleProductEvent_replay (w : World ν) (data : ProductEventData) (key : String) :
    (handleProductEvent (handleProductEvent w data key) data key).orders =
      (handleProductEvent w data key).orders := by
  by_cases hk : key = "product.deleted"
  · subst hk
    cases hp : parseInt data.productId with
    | none => simp [handleProductEvent, hp]
    | some p =>
      rw [(handleProductEvent_result _ data p hp).1]
      conv_rhs => rw [← List.map_id (handleProductEvent w data "product.deleted").orders]
      rw [(handleProductEvent_result w data p hp).1, List.map_map, List.map_map]
      apply List.map_congr_left
      intro o _
      simp only [Function.comp, id]
      have hid : ∀ x : Order ν, ((productDeletedPatch data.productName).apply x).id = x.id :=
        fun _ => rfl
      by_cases hmem : o.id ∈ prisma.orderItem.findMany w p ["completed", "cancelled"]
      · simp only [if_pos hmem, hid, (findMany_replay w data p hp o.id).mpr hmem,
          OrderPatch.apply_apply, if_true]
      · have hnot := fun h => hmem ((findMany_replay w data p hp o.id).mp h)
        simp only [if_neg hmem, if_neg hnot]
  · simp [handleProductEvent, hk]

/-- C12: handling the same `user.*` or `product.*` event a second time leaves the order
store as the first handling left it (same statuses, notes and flags), and the second
handling of a `product.deleted` event carries out every one of its updates: none of them
throws. -/
theorem C12_reconciler_replay_changes_nothing (w : World ν) (userData : UserEventData)
    (productData : ProductEventData) (key : String) :
    (handleUserEvent (handleUserEvent w userData key) userData key).orders =
        (handleUserEvent w userData key).orders ∧
      (handleProductEvent (handleProductEvent w productData key) productData key).orders =
        (handleProductEvent w productData key).orders ∧
      emitted (handleProductEvent w productData key)
          (handleProductEvent (handleProductEvent w productData key) productData key) =
        if key = "product.deleted" then
          match parseInt productData.productId with
          | some p =>
            (prisma.orderItem.findMany (handleProductEvent w productData key) p
              ["completed", "cancelled"]).map
              (fun id => Effect.orderUpdate id (productDeletedPatch productData.productName))
          | none => []
        else [] := by
  refine ⟨handleUserEvent_replay w userData key, handleProductEvent_replay w productData key, ?_⟩
  by_cases hk : key = "product.deleted"
  · subst hk
    simp only [if_true]
    cases hp : parseInt productData.productId with
    | none =>
      simp only []
      have : handleProductEvent w productData "product.deleted" = w := by
        simp [handleProductEvent, hp]
      rw [this, this, emitted_self]
    | some p =>
      simp only []
      exact emitted_append _ _ _ (handleProductEvent_result _ productData p hp).2
  · rw [if_neg hk]
    have : ∀ x : World ν, handleProductEvent x productData key = x := by
      intro x; simp [handleProductEvent, hk]
    rw [this, this, emitted_self]

/-! ## Status update and deletion: store and response -/

theorem findUnique_id (w : World ν) (id : Int) (o : Order ν)
    (h : prisma.order.findUnique w id = some o) : o.id = id := by
  unfold prisma.order.findUnique at h
  have := List.find?_some h
  simpa using this

theorem find_after_update (l : List (Order ν)) (id : Int) (d : OrderPatch) :
    (l.map (fun x => if x.id = id then d.apply x else x)).find? (fun o => decide (o.id = id)) =
      (l.find? (fun o => decide (o.id = id))).map d.apply := by
  induction l with
  | nil => rfl
  | cons a rest ih =>
    have hid : (d.apply a).id = a.id := rfl
    by_cases ha : a.id = id
    · simp [List.find?_cons, ha, hid]
    · simp [List.find?_cons, ha, ih]

/-- Store and response of `PATCH /:id/status` on an existing order, whatever the state of
the channel. -/
theorem updateOrderStatus_result (w : World ν) (idParam status : String) (orderId : Int)
    (order : Order ν) (hs : status ≠ "")
    (hid : parseInt (JSId.str idParam) = some orderId)
    (hfind : prisma.order.findUnique w orderId = some order) :
    (updateOrderStatus w idParam (some status)).2 =
        ⟨200, Body.order ((statusPatch status).apply order)⟩ ∧
      (updateOrderStatus w idParam (some status)).1.orders =
        w.orders.map (fun x => if x.id = orderId then (statusPatch status).apply x else x) := by
  obtain ⟨w1, hupd⟩ := update_isSome w orderId (statusPatch status) order hfind
  obtain ⟨-, -, hord⟩ := update_trace w w1 orderId _ _ hupd
  unfold updateOrderStatus
  simp only [hs, if_false, hid, hfind]
  unfold statusPatch at hupd
  rw [hupd]
  simp only []
  cases hc : w1.rabbitChannel with
  | none => exact ⟨rfl, hord⟩
  | some c =>
    simp only []
    refine ⟨rfl, ?_⟩
    rw [← hord]
    split <;> split <;>
      simp only [publishInventory_orders, publishToExchange_orders]

/-- C13 fails as stated: a status-update request with status `affected` on the processing
order is answered 200 and leaves the order `affected`. -/
theorem C13_client_request_sets_affected :
    (prisma.order.findUnique orderWorld 1).map (fun o => o.status) = some "processing" ∧
      (updateOrderStatus orderWorld "1" (some "affected")).2 =
        ⟨200, Body.order { shopOrder with status := "affected" }⟩ ∧
      (prisma.order.findUnique (updateOrderStatus orderWorld "1" (some "affected")).1 1).map
        (fun o => o.status) = some "affected" := by
  decide

/-- C13 (amended): a status-update request whose target status is not `affected`, on an
existing order whose status is not `affected`, leaves the order with a status other than
`affected`. -/
theorem C13_affected_only_when_requested (w : World ν) (idParam : String)
    (st : Option String) (orderId : Int) (order : Order ν)
    (hid : parseInt (JSId.str idParam) = some orderId)
    (hfind : prisma.order.findUnique w orderId = some order)
    (hna : order.status ≠ "affected") (hst : st ≠ some "affected") :
    ∃ o1, prisma.order.findUnique (updateOrderStatus w idParam st).1 orderId = some o1 ∧
      o1.status ≠ "affected" := by
  by_cases hno : st = none ∨ st = some ""
  · rw [updateOrderStatus_no_status w idParam st hno]
    exact ⟨order, hfind, hna⟩
  · obtain ⟨status, rfl, hs⟩ : ∃ s, st = some s ∧ s ≠ "" := by
      cases st with
      | none => simp at hno
      | some s => exact ⟨s, rfl, fun h => hno (Or.inr (by rw [h]))⟩
    refine ⟨(statusPatch status).apply order, ?_, ?_⟩
    · unfold prisma.order.findUnique
      rw [(updateOrderStatus_result w idParam status orderId order hs hid hfind).2,
        find_after_update]
      unfold prisma.order.findUnique at hfind
      rw [hfind]
      rfl
    · intro h
      apply hst
      have : ((statusPatch status).apply order).status = status := rfl
      rw [← this, h]

/-- C13 (amended) on the processing order: a request for `shipped` leaves it `shipped`. -/
theorem C13_affected_only_when_requested_witness :
    parseInt (JSId.str "1") = some 1 ∧
      prisma.order.findUnique orderWorld 1 = some shopOrder ∧
      shopOrder.status ≠ "affected" ∧ (some "shipped" : Option String) ≠ some "affected" ∧
      ∃ o1, prisma.order.findUnique (updateOrderStatus orderWorld "1" (some "shipped")).1 1 =
          some o1 ∧ o1.status ≠ "affected" :=
  ⟨by decide, by decide, by decide, by decide,
    C13_affected_only_when_requested orderWorld "1" (some "shipped") 1 shopOrder
      (by decide) (by decide) (by decide) (by decide)⟩

/-! ## Order creation: events, items and rejections -/

theorem publishToExchange_nextOrderId (w : World ν) (c : Channel) (e k : String)
    (m : Payload ν) : (publishToExchange w c e k m).nextOrderId = w.nextOrderId := by
  unfold publishToExchange World.log; split <;> rfl

theorem axiosPutStock_frame (w : World ν) (pid : Int) (s : ν) :
    (axiosPutStock w pid s).1.orders = w.orders ∧
      (axiosPutStock w pid s).1.rabbitChannel = w.rabbitChannel ∧
      (axiosPutStock w pid s).1.nextOrderId = w.nextOrderId ∧
      (axiosPutStock w pid s).1.trace = w.trace ++ [Effect.putStock pid s] := by
  unfold axiosPutStock
  split <;> exact ⟨rfl, rfl, rfl, rfl⟩

/-- The item loop of `POST /` neither touches the order store nor the channel handle,
whichever way it ends. -/
theorem createOrderItemLoop_frame [Add ν] [Mul ν] [Sub ν] [LT ν]
    [DecidableRel (fun a b : ν => a < b)] (items : List (LineItem ν)) :
    ∀ (w : World ν) (total : ν) (acc : List (OrderItem ν)),
      (createOrderItemLoop w total acc items).1.orders = w.orders ∧
        (createOrderItemLoop w total acc items).1.rabbitChannel = w.rabbitChannel ∧
        (createOrderItemLoop w total acc items).1.nextOrderId = w.nextOrderId := by
  induction items with
  | nil => intro w total acc; exact ⟨rfl, rfl, rfl⟩
  | cons item rest ih =>
    intro w total acc
    rw [createOrderItemLoop]
    simp only []
    split
    · exact ⟨rfl, rfl, rfl⟩
    · split
      · exact ⟨rfl, rfl, rfl⟩
      · split
        · rename_i channel hch
          obtain ⟨h1, h2, h3⟩ := ih (publishToExchange (axiosGetProduct w item.productId).1
            channel "inventory_events" "inventory.reserved"
            (Payload.reserved _ item.quantity)) (total + _ * item.quantity) (acc ++ [_])
          rw [publishToExchange_orders] at h1
          rw [publishToExchange_rabbitChannel] at h2
          rw [publishToExchange_nextOrderId] at h3
          exact ⟨h1, h2, h3⟩
        · split
          · obtain ⟨h1, h2, h3⟩ := ih (axiosPutStock (axiosGetProduct w item.productId).1
              item.productId (_ - item.quantity)).1 (total + _ * item.quantity) (acc ++ [_])
            obtain ⟨f1, f2, f3, -⟩ := axiosPutStock_frame (axiosGetProduct w item.productId).1
              item.productId (_ - item.quantity)
            exact ⟨h1.trans f1, h2.trans f2, h3.trans f3⟩
          · obtain ⟨f1, f2, f3, -⟩ := axiosPutStock_frame (axiosGetProduct w item.productId).1
              item.productId (_ - item.quantity)
            exact ⟨f1, f2, f3⟩

theorem publishedWith_cons_getProduct (k : String) (pid : Int) (es : List (Effect ν)) :
    publishedWith k (Effect.getProduct pid :: es) = publishedWith k es := by
  unfold publishedWith; simp

/-- Effects of the item loop of `POST /` when the channel handle is set and the loop
ends without an early return: the `inventory.reserved` messages are those of the line
items in request order (none on a closed channel), nothing else is published and no
stock is written. -/
theorem createOrderItemLoop_reserved [Add ν] [Mul ν] [Sub ν] [LT ν]
    [DecidableRel (fun a b : ν => a < b)] (items : List (LineItem ν)) :
    ∀ (w : World ν) (total : ν) (acc : List (OrderItem ν)) (w1 : World ν) (total1 : ν)
      (acc1 : List (OrderItem ν)) (c : Channel),
      createOrderItemLoop w total acc items = (w1, Except.ok (total1, acc1)) →
      w.rabbitChannel = some c →
      ∃ es, w1.trace = w.trace ++ es ∧
        publishedWith "inventory.reserved" es =
          (if c.closed = true then [] else items.map reservedMessage) ∧
        stockWrites es = [] ∧
        ∀ k, k ≠ "inventory.reserved" → publishedWith k es = [] := by
  induction items with
  | nil =>
    intro w total acc w1 total1 acc1 c h _
    simp only [createOrderItemLoop, Prod.mk.injEq, Except.ok.injEq] at h
    obtain ⟨rfl, -, -⟩ := h
    refine ⟨[], by simp, ?_, rfl, fun _ _ => rfl⟩
    by_cases hc : c.closed = true <;> simp [hc, publishedWith]
  | cons item rest ih =>
    intro w total acc w1 total1 acc1 c h hw
    rw [createOrderItemLoop] at h
    simp only [axiosGetProduct] at h
    split at h
    · simp at h
    · rename_i product hfind
      have hpid : product._id = item.productId := by
        have := List.find?_some hfind
        simpa using this
      split at h
      · simp at h
      · split at h
        · rename_i channel hch
          have hcc : channel = c := by
            have : w.rabbitChannel = some channel := hch
            rw [hw] at this
            exact (Option.some.inj this).symm
          subst hcc
          obtain ⟨es, htr, hres, hsw, hother⟩ := ih _ _ _ _ _ _ channel h
            (by rw [publishToExchange_rabbitChannel]; exact hch)
          rw [publishToExchange_trace] at htr
          refine ⟨Effect.getProduct item.productId ::
            ((if channel.closed = true then []
              else [Effect.published ⟨"inventory_events", "inventory.reserved",
                Payload.reserved product._id item.quantity⟩]) ++ es), ?_, ?_, ?_, ?_⟩
          · rw [htr]; simp [World.log]
          · by_cases hcl : channel.closed = true
            · rw [if_pos hcl] at hres
              rw [if_pos hcl, if_pos hcl, List.nil_append, publishedWith_cons_getProduct, hres]
            · rw [if_neg hcl] at hres
              rw [if_neg hcl, if_neg hcl, publishedWith_cons_getProduct, List.singleton_append,
                publishedWith_cons_published, if_pos rfl, hres, hpid]
              rfl
          · by_cases hcl : channel.closed = true
            · rw [if_pos hcl, List.nil_append]
              simpa [stockWrites] using hsw
            · rw [if_neg hcl]
              simpa [stockWrites] using hsw
          · intro k hk
            have hk1 : ¬("inventory.reserved" = k) := fun h => hk h.symm
            by_cases hcl : channel.closed = true
            · rw [if_pos hcl, List.nil_append, publishedWith_cons_getProduct]
              exact hother k hk
            · rw [if_neg hcl, publishedWith_cons_getProduct, List.singleton_append,
                publishedWith_cons_published, if_neg hk1]
              exact hother k hk
        · rename_i hch
          have : w.rabbitChannel = none := hch
          rw [hw] at this
          simp at this

/-- The world after the path through `POST /` that ends in a 201 response. -/
theorem createOrder_created_world [Zero ν] [Add ν] [Mul ν] [Sub ν] [LT ν]
    [DecidableRel (fun a b : ν => a < b)] (w : World ν) (body : CreateOrderBody ν)
    (o : Order ν) (h : (createOrder w body).2 = ⟨201, Body.order o⟩) :
    ∃ lines userId wl total items, body.products = ProductsField.array lines ∧
      createOrderItemLoop (axiosGetUser w body.userId).1 0 [] lines =
        (wl, Except.ok (total, items)) ∧
      o = (prisma.order.create wl userId total "processing" items).2 ∧
      (createOrder w body).1 =
        (match wl.rabbitChannel with
          | some channel =>
            publishToExchange (prisma.order.create wl userId total "processing" items).1
              channel "order_events" "order.created" (Payload.orderCreated o)
          | none => (prisma.order.create wl userId total "processing" items).1) := by
  unfold createOrder at h ⊢
  cases hp : body.products with
  | missing => rw [hp] at h; simp at h
  | notArray => rw [hp] at h; simp at h
  | array lines =>
    rw [hp] at h
    simp only [] at h ⊢
    by_cases hv : body.userId.truthy = false ∨ lines.length = 0
    · rw [if_pos hv] at h; simp at h
    · rw [if_neg hv] at h ⊢
      by_cases hu : (axiosGetUser w body.userId).2 = false
      · rw [if_pos hu] at h; simp at h
      · rw [if_neg hu] at h ⊢
        have herr := createOrderItemLoop_error lines (axiosGetUser w body.userId).1 0 []
        have hpair : createOrderItemLoop (axiosGetUser w body.userId).1 0 [] lines =
            ((createOrderItemLoop (axiosGetUser w body.userId).1 0 [] lines).1,
             (createOrderItemLoop (axiosGetUser w body.userId).1 0 [] lines).2) := rfl
        generalize (createOrderItemLoop (axiosGetUser w body.userId).1 0 [] lines).2 = r2
          at h herr hpair ⊢
        generalize (createOrderItemLoop (axiosGetUser w body.userId).1 0 [] lines).1 = wl
          at h hpair ⊢
        cases r2 with
        | error res =>
          simp only [] at h
          obtain ⟨e, he⟩ := herr res rfl
          rw [h] at he
          simp at he
        | ok p =>
          obtain ⟨total, items⟩ := p
          simp only [] at h ⊢
          cases hid : parseInt body.userId with
          | none => rw [hid] at h; simp at h
          | some userId =>
            rw [hid] at h
            simp only [] at h ⊢
            have ho : o = (prisma.order.create wl userId total "processing" items).2 := by
              split at h <;> simp at h <;> exact h.symm
            refine ⟨lines, userId, wl, total, items, rfl, hpair, ho, ?_⟩
            have hch : (prisma.order.create wl userId total "processing" items).1.rabbitChannel =
                wl.rabbitChannel := rfl
            rw [hch, ← ho]
            cases wl.rabbitChannel <;> rfl

theorem channelOpen_iff (w : World ν) :
    channelOpen w = true ↔ ∃ c, w.rabbitChannel = some c ∧ c.closed = false := by
  unfold channelOpen
  cases w.rabbitChannel with
  | none => simp
  | some c => cases hc : c.closed <;> simp [hc]

/-- Effects of a `POST /` that ends in a 201 response while the channel handle is set:
the user lookup, the effects of the item loop, the insertion and, on an open channel, the
`order.created` message. -/
theorem createOrder_created_trace [Zero ν] [Add ν] [Mul ν] [Sub ν] [LT ν]
    [DecidableRel (fun a b : ν => a < b)] (w : World ν) (body : CreateOrderBody ν)
    (o : Order ν) (c : Channel) (h : (createOrder w body).2 = ⟨201, Body.order o⟩)
    (hw : w.rabbitChannel = some c) :
    ∃ lines es, body.products = ProductsField.array lines ∧
      emitted w (createOrder w body).1 =
        Effect.getUser body.userId.toStr :: (es ++ Effect.orderCreate o ::
          (if c.closed = true then []
           else [Effect.published ⟨"order_events", "order.created", Payload.orderCreated o⟩])) ∧
      publishedWith "inventory.reserved" es =
        (if c.closed = true then [] else lines.map reservedMessage) ∧
      stockWrites es = [] ∧
      ∀ k, k ≠ "inventory.reserved" → publishedWith k es = [] := by
  obtain ⟨lines, userId, wl, total, items, hp, hloop, ho, hworld⟩ :=
    createOrder_created_world w body o h
  have hwl : wl.rabbitChannel = some c := by
    have := (createOrderItemLoop_frame lines (axiosGetUser w body.userId).1 0 []).2.1
    rw [hloop] at this
    exact this.trans hw
  obtain ⟨es, htr, hres, hsw, hother⟩ := createOrderItemLoop_reserved lines _ _ _ _ _ _ c hloop
    (show (axiosGetUser w body.userId).1.rabbitChannel = some c from hw)
  refine ⟨lines, es, hp, ?_, hres, hsw, hother⟩
  apply emitted_append
  rw [hworld, hwl]
  simp only []
  rw [publishToExchange_trace]
  have hcr : (prisma.order.create wl userId total "processing" items).1.trace =
      wl.trace ++ [Effect.orderCreate o] := by rw [ho]; rfl
  rw [hcr, htr]
  simp [axiosGetUser, World.log]

/-- C14: when `POST /` answers 201 while the channel is available, the
`inventory.reserved` messages it has published are exactly those of the requested line
items, one per line in request order, each with the productId and quantity of its
line. -/
theorem C14_one_reserved_event_per_line_item [Zero ν] [Add ν] [Mul ν] [Sub ν] [LT ν]
    [DecidableRel (fun a b : ν => a < b)] (w : World ν) (body : CreateOrderBody ν)
    (o : Order ν) (h : (createOrder w body).2 = ⟨201, Body.order o⟩)
    (hopen : channelOpen w = true) :
    ∃ lines, body.products = ProductsField.array lines ∧
      publishedWith "inventory.reserved" (emitted w (createOrder w body).1) =
        lines.map (fun li =>
          ⟨"inventory_events", "inventory.reserved",
            Payload.reserved li.productId li.quantity⟩) := by
  obtain ⟨c, hw, hcl⟩ := (channelOpen_iff w).mp hopen
  obtain ⟨lines, es, hp, htr, hres, -, -⟩ := createOrder_created_trace w body o c h hw
  refine ⟨lines, hp, ?_⟩
  have hk : ¬("order.created" = "inventory.reserved") := by decide
  rw [htr]
  simp only [hcl, Bool.false_eq_true, if_false] at hres ⊢
  unfold publishedWith at hres ⊢
  simp only [List.filterMap_cons, List.filterMap_append, hres, hk, if_false,
    List.filterMap_nil, List.append_nil]
  rfl

/-- C14 on the request for two products: two reservations, in request order. -/
theorem C14_reserved_events_witness :
    (createOrder shopWorld shopBody).2 = ⟨201, Body.order shopOrder⟩ ∧
      channelOpen shopWorld = true ∧
      publishedWith "inventory.reserved" (emitted shopWorld (createOrder shopWorld shopBody).1) =
        [⟨"inventory_events", "inventory.reserved", Payload.reserved 1 2⟩,
         ⟨"inventory_events", "inventory.reserved", Payload.reserved 2 3⟩] ∧
      ∃ lines, shopBody.products = ProductsField.array lines ∧
        publishedWith "inventory.reserved"
            (emitted shopWorld (createOrder shopWorld shopBody).1) =
          lines.map (fun li =>
            ⟨"inventory_events", "inventory.reserved",
              Payload.reserved li.productId li.quantity⟩) :=
  ⟨by decide, by decide, by decide,
    C14_one_reserved_event_per_line_item shopWorld shopBody shopOrder (by decide) (by decide)⟩

/-- C15: when `POST /` answers 201 with the order `o`, that order is in the store with
status `processing`, and its items are the requested line items in request order, one
per line, each with the productId and quantity of its line and the name and price under
which the products service knows that product. -/
theorem C15_created_order_is_processing_with_snapshot_items [Zero ν] [Add ν] [Mul ν]
    [Sub ν] [LT ν] [DecidableRel (fun a b : ν => a < b)] (w : World ν)
    (body : CreateOrderBody ν) (o : Order ν)
    (h : (createOrder w body).2 = ⟨201, Body.order o⟩) :
    o ∈ (createOrder w body).1.orders ∧ o.status = "processing" ∧
      ∃ lines, body.products = ProductsField.array lines ∧
        List.Forall₂
          (fun li item => item.productId = li.productId ∧ item.quantity = li.quantity ∧
            (w.products.find? (fun p => decide (p._id = li.productId))).map
              (fun p => (p.name, p.price)) = some (item.name, item.price))
          lines o.items := by
  obtain ⟨lines, userId, wl, total, items, hp, hloop, -, ho, hstore⟩ :=
    createOrder_created w body o h
  obtain ⟨new, hnew, -, hfa, -⟩ := createOrderItemLoop_ok lines _ _ _ _ _ _ hloop
  simp only [List.nil_append] at hnew
  subst hnew
  have hitems : o.items = items := by rw [ho]; rfl
  refine ⟨by rw [hstore]; simp, by rw [ho]; rfl, lines, hp, ?_⟩
  rw [hitems]
  exact hfa.imp (fun li it hit => ⟨hit.1, hit.2.1, hit.2.2⟩)

/-- C15 on the request for two products. -/
theorem C15_created_order_witness :
    (createOrder shopWorld shopBody).2 = ⟨201, Body.order shopOrder⟩ ∧
      (shopOrder ∈ (createOrder shopWorld shopBody).1.orders ∧
        shopOrder.status = "processing" ∧
        ∃ lines, shopBody.products = ProductsField.array lines ∧
          List.Forall₂
            (fun li item => item.productId = li.productId ∧ item.quantity = li.quantity ∧
              (shopWorld.products.find? (fun p => decide (p._id = li.productId))).map
                (fun p => (p.name, p.price)) = some (item.name, item.price))
            lines shopOrder.items) :=
  ⟨by decide,
    C15_created_order_is_processing_with_snapshot_items shopWorld shopBody shopOrder
      (by decide)⟩

/-- When the item loop gets through a first run of line items, the loop over a longer
list continues from the world, total and items reached at the end of that run. -/
theorem createOrderItemLoop_append [Add ν] [Mul ν] [Sub ν] [LT ν]
    [DecidableRel (fun a b : ν => a < b)] (pre rest : List (LineItem ν)) :
    ∀ (w : World ν) (total : ν) (acc : List (OrderItem ν)) (w2 : World ν) (total2 : ν)
      (acc2 : List (OrderItem ν)),
      createOrderItemLoop w total acc pre = (w2, Except.ok (total2, acc2)) →
      createOrderItemLoop w total acc (pre ++ rest) = createOrderItemLoop w2 total2 acc2 rest := by
  induction pre with
  | nil =>
    intro w total acc w2 total2 acc2 h
    simp only [createOrderItemLoop, Prod.mk.injEq, Except.ok.injEq] at h
    obtain ⟨rfl, rfl, rfl⟩ := h
    rfl
  | cons item more ih =>
    intro w total acc w2 total2 acc2 h
    rw [List.cons_append, createOrderItemLoop]
    rw [createOrderItemLoop] at h
    simp only [] at h ⊢
    split at h
    · simp at h
    · rename_i product hfind
      split at h
      · simp at h
      · rename_i hstock
        rw [if_neg hstock]
        split at h
        · rename_i channel hch
          exact ih _ _ _ _ _ _ h
        · rename_i hch
          split at h
          · rename_i hput
            rw [if_pos hput]
            exact ih _ _ _ _ _ _ h
          · simp at h

/-- C16: a request by an existing user in which the item loop gets through the line
items `pre` and then meets a line item `bad` whose quantity exceeds the stock of the
product returned by its lookup is answered 400, and the order store is left as it
was. -/
theorem C16_insufficient_stock_is_400_and_persists_nothing [Zero ν] [Add ν] [Mul ν]
    [Sub ν] [LT ν] [DecidableRel (fun a b : ν => a < b)] (w : World ν)
    (body : CreateOrderBody ν) (pre rest : List (LineItem ν)) (bad : LineItem ν)
    (w2 : World ν) (total : ν) (items : List (OrderItem ν)) (product : Product ν)
    (hp : body.products = ProductsField.array (pre ++ bad :: rest))
    (hid : body.userId.truthy = true)
    (huser : (axiosGetUser w body.userId).2 = true)
    (hpre : createOrderItemLoop (axiosGetUser w body.userId).1 0 [] pre =
      (w2, Except.ok (total, items)))
    (hfind : (axiosGetProduct w2 bad.productId).2 = some product)
    (hbad : bad.quantity > product.stock) :
    (createOrder w body).2 =
        ⟨400, Body.error (ErrorBody.notEnoughStock product.name product.stock)⟩ ∧
      (createOrder w body).1.orders = w.orders := by
  have hloop : createOrderItemLoop (axiosGetUser w body.userId).1 0 [] (pre ++ bad :: rest) =
      ((axiosGetProduct w2 bad.productId).1,
        Except.error ⟨400, Body.error (ErrorBody.notEnoughStock product.name product.stock)⟩) := by
    rw [createOrderItemLoop_append pre (bad :: rest) _ _ _ _ _ _ hpre, createOrderItemLoop]
    simp only [hfind, if_pos hbad]
  have hw2 : w2.orders = w.orders := by
    have := (createOrderItemLoop_frame pre (axiosGetUser w body.userId).1 0 []).1
    rw [hpre] at this
    exact this
  have hlen : ¬(body.userId.truthy = false ∨ (pre ++ bad :: rest).length = 0) := by
    simp [hid]
  have hmain : createOrder w body = ((axiosGetProduct w2 bad.productId).1,
      ⟨400, Body.error (ErrorBody.notEnoughStock product.name product.stock)⟩) := by
    unfold createOrder
    rw [hp]
    simp only [if_neg hlen, huser, Bool.true_eq_false, if_false, hloop]
  rw [hmain]
  exact ⟨rfl, hw2⟩

/-- C16 on the request whose second line asks for 100 phones when 5 are in stock. -/
theorem C16_insufficient_stock_witness :
    overdrawnBody.products = ProductsField.array ([⟨1, 1⟩] ++ ⟨2, 100⟩ :: []) ∧
      overdrawnBody.userId.truthy = true ∧
      (axiosGetUser shopWorld overdrawnBody.userId).2 = true ∧
      (createOrderItemLoop (axiosGetUser shopWorld overdrawnBody.userId).1 0 []
          [(⟨1, 1⟩ : LineItem Int)]).2 = Except.ok (1000, [⟨1, 1, "Laptop", 1000⟩]) ∧
      (axiosGetProduct
          (createOrderItemLoop (axiosGetUser shopWorld overdrawnBody.userId).1 0 []
            [(⟨1, 1⟩ : LineItem Int)]).1 2).2 = some ⟨2, "Phone", 700, 5⟩ ∧
      (100 : Int) > 5 ∧
      (createOrder shopWorld overdrawnBody).2 =
        ⟨400, Body.error (ErrorBody.notEnoughStock "Phone" 5)⟩ ∧
      (createOrder shopWorld overdrawnBody).1.orders = shopWorld.orders :=
  ⟨by decide, by decide, by decide, rfl, by decide, by decide,
    C16_insufficient_stock_is_400_and_persists_nothing shopWorld overdrawnBody
      [⟨1, 1⟩] [] ⟨2, 100⟩
      (createOrderItemLoop (axiosGetUser shopWorld overdrawnBody.userId).1 0 [] [⟨1, 1⟩]).1
      1000 [⟨1, 1, "Laptop", 1000⟩] ⟨2, "Phone", 700, 5⟩
      (by decide) (by decide) (by decide) rfl (by decide) (by decide)⟩

/-- C20: a request whose `userId` is missing (or otherwise falsy), or whose `products`
field is missing, is not an array or is an empty array, is answered 400 and changes
nothing: the world after it is the world before it, so no lookup was made, no message
published, no stock written and no order persisted. -/
theorem C20_invalid_request_is_400_and_changes_nothing [Zero ν] [Add ν] [Mul ν] [Sub ν]
    [LT ν] [DecidableRel (fun a b : ν => a < b)] (w : World ν) (body : CreateOrderBody ν)
    (h : body.userId.truthy = false ∨ body.products = ProductsField.missing ∨
      body.products = ProductsField.notArray ∨ body.products = ProductsField.array []) :
    createOrder w body = (w, ⟨400, Body.error ErrorBody.userIdAndProductsRequired⟩) ∧
      emitted w (createOrder w body).1 = [] := by
  have hmain : createOrder w body =
      (w, ⟨400, Body.error ErrorBody.userIdAndProductsRequired⟩) := by
    unfold createOrder
    cases hp : body.products with
    | missing => rfl
    | notArray => rfl
    | array lines =>
      simp only []
      have hv : body.userId.truthy = false ∨ lines.length = 0 := by
        rcases h with h | h | h | h
        · exact Or.inl h
        · rw [hp] at h; cases h
        · rw [hp] at h; cases h
        · rw [hp] at h
          injection h with h
          exact Or.inr (by rw [h]; rfl)
      rw [if_pos hv]
  exact ⟨hmain, by rw [hmain]; exact emitted_self w⟩

/-- C20 on a request without `userId` and on a request with an empty `products` array. -/
theorem C20_invalid_request_witness :
    ((JSId.undefined.truthy = false ∨
        (ProductsField.array [⟨1, 1⟩] : ProductsField Int) = ProductsField.missing ∨
        (ProductsField.array [⟨1, 1⟩] : ProductsField Int) = ProductsField.notArray ∨
        (ProductsField.array [⟨1, 1⟩] : ProductsField Int) = ProductsField.array []) ∧
      createOrder shopWorld ⟨JSId.undefined, ProductsField.array [⟨1, 1⟩]⟩ =
        (shopWorld, ⟨400, Body.error ErrorBody.userIdAndProductsRequired⟩)) ∧
      createOrder shopWorld ⟨JSId.num 1, ProductsField.array []⟩ =
        (shopWorld, ⟨400, Body.error ErrorBody.userIdAndProductsRequired⟩) :=
  ⟨⟨Or.inl rfl,
      (C20_invalid_request_is_400_and_changes_nothing shopWorld
        ⟨JSId.undefined, ProductsField.array [⟨1, 1⟩]⟩ (Or.inl rfl)).1⟩,
    (C20_invalid_request_is_400_and_changes_nothing shopWorld
      ⟨JSId.num 1, ProductsField.array []⟩ (Or.inr (Or.inr (Or.inr rfl)))).1⟩

/-- C17 (evaluation at the failing input): with the channel handle set and the channel
closed, the request for two products is answered 201 and the order is persisted, yet no
`inventory.reserved` message is published and no stock write is issued: the reservation
is carried out by neither path. With the handle unset the same request issues the two
stock writes, each to the looked-up stock less the requested quantity. -/
theorem C17_closed_channel_reserves_by_neither_path :
    (createOrder brokerLostWorld shopBody).2 = ⟨201, Body.order shopOrder⟩ ∧
      (createOrder brokerLostWorld shopBody).1.orders = [shopOrder] ∧
      publishedWith "inventory.reserved"
        (emitted brokerLostWorld (createOrder brokerLostWorld shopBody).1) = [] ∧
      stockWrites (emitted brokerLostWorld (createOrder brokerLostWorld shopBody).1) = [] ∧
      (createOrder { shopWorld with rabbitChannel := none } shopBody).2 =
        ⟨201, Body.order shopOrder⟩ ∧
      stockWrites (emitted { shopWorld with rabbitChannel := none }
        (createOrder { shopWorld with rabbitChannel := none } shopBody).1) =
        [(1, 8), (2, 2)] ∧
      publishedWith "inventory.reserved"
        (emitted { shopWorld with rabbitChannel := none }
          (createOrder { shopWorld with rabbitChannel := none } shopBody).1) = [] := by
  decide

/-- Response of `DELETE /:id` on an existing order, whatever the state of the channel. -/
theorem deleteOrder_response (w : World ν) (idParam : String) (orderId : Int)
    (order : Order ν) (hid : parseInt (JSId.str idParam) = some orderId)
    (hfind : prisma.order.findUnique w orderId = some order) :
    (deleteOrder w idParam).2 = ⟨204, Body.empty⟩ := by
  obtain ⟨w1, hdel⟩ := delete_isSome w orderId order hfind
  unfold deleteOrder
  simp only [hid, hfind, hdel]
  split <;> rfl

/-- C18: a status update or a deletion of an existing order is answered with success
whatever the state of the channel, so whatever becomes of the publications: the status
update answers 200 with the updated order and the store holds that order, the deletion
answers 204 and the store no longer holds the order. -/
theorem C18_publish_outcome_never_changes_the_response (w : World ν) (idParam : String)
    (status : String) (orderId : Int) (order : Order ν) (hs : status ≠ "")
    (hid : parseInt (JSId.str idParam) = some orderId)
    (hfind : prisma.order.findUnique w orderId = some order) :
    ((updateOrderStatus w idParam (some status)).2 =
        ⟨200, Body.order { order with status := status }⟩ ∧
      prisma.order.findUnique (updateOrderStatus w idParam (some status)).1 orderId =
        some { order with status := status }) ∧
    ((deleteOrder w idParam).2 = ⟨204, Body.empty⟩ ∧
      prisma.order.findUnique (deleteOrder w idParam).1 orderId = none) := by
  obtain ⟨hres, hord⟩ := updateOrderStatus_result w idParam status orderId order hs hid hfind
  refine ⟨⟨hres, ?_⟩, deleteOrder_response w idParam orderId order hid hfind,
    deleteOrder_removes w idParam orderId order hid hfind⟩
  unfold prisma.order.findUnique
  rw [hord, find_after_update]
  unfold prisma.order.findUnique at hfind
  rw [hfind]
  rfl

/-- C18 on the processing order while the channel is closed: every publication fails,
the update is answered 200 and the deletion 204. -/
theorem C18_closed_channel_witness :
    ("shipped" : String) ≠ "" ∧ parseInt (JSId.str "1") = some 1 ∧
      prisma.order.findUnique { orderWorld with rabbitChannel := some ⟨true⟩ } 1 =
        some shopOrder ∧
      (updateOrderStatus { orderWorld with rabbitChannel := some ⟨true⟩ } "1"
          (some "shipped")).2 = ⟨200, Body.order { shopOrder with status := "shipped" }⟩ ∧
      (deleteOrder { orderWorld with rabbitChannel := some ⟨true⟩ } "1").2 =
        ⟨204, Body.empty⟩ :=
  ⟨by decide, by decide, by decide,
    (C18_publish_outcome_never_changes_the_response
      { orderWorld with rabbitChannel := some ⟨true⟩ } "1" "shipped" 1 shopOrder
      (by decide) (by decide) (by decide)).1.1,
    by decide⟩

/-- C19 (evaluation at the failing input): a message delivered to a subscription whose
callback is asynchronous and whose promise rejects is acknowledged all the same, as is
one whose promise fulfils; only a callback that throws synchronously, or a content that
does not parse, keeps the acknowledgement from being sent. -/
theorem C19_async_handler_failure_is_acknowledged :
    subscribeToExchange.onMessage (fun (_ : ProductEventData) _ => CallbackResult.promise true)
        (some ⟨some ⟨JSId.str "101", "Widget"⟩, "product.deleted"⟩) = true ∧
      subscribeToExchange.onMessage (fun (_ : ProductEventData) _ => CallbackResult.promise false)
        (some ⟨some ⟨JSId.str "101", "Widget"⟩, "product.deleted"⟩) = true ∧
      subscribeToExchange.onMessage (fun (_ : ProductEventData) _ => CallbackResult.threw)
        (some ⟨some ⟨JSId.str "101", "Widget"⟩, "product.deleted"⟩) = false ∧
      subscribeToExchange.onMessage (fun (_ : ProductEventData) _ => CallbackResult.returned)
        (some ⟨none, "product.deleted"⟩) = false := by
  decide

/-! ## Status update: frame; requests without a channel handle -/

/-- C21: a status-update request with a non-empty status `s` on an existing order is
answered with an order, which is also the order the store then holds under that id, whose
status is `s` and whose other columns (id, userId, totalAmount, statusNote, userDeleted,
items) are those of the order before the request. -/
theorem C21_status_update_changes_only_the_status (w : World ν) (idParam : String)
    (s : String) (orderId : Int) (order : Order ν) (hs : s ≠ "")
    (hid : parseInt (JSId.str idParam) = some orderId)
    (hfind : prisma.order.findUnique w orderId = some order) :
    ∃ o1, (updateOrderStatus w idParam (some s)).2 = ⟨200, Body.order o1⟩ ∧
      prisma.order.findUnique (updateOrderStatus w idParam (some s)).1 orderId = some o1 ∧
      o1.status = s ∧ o1.id = order.id ∧ o1.userId = order.userId ∧
      o1.totalAmount = order.totalAmount ∧ o1.statusNote = order.statusNote ∧
      o1.userDeleted = order.userDeleted ∧ o1.items = order.items := by
  obtain ⟨hres, hord⟩ := updateOrderStatus_result w idParam s orderId order hs hid hfind
  refine ⟨(statusPatch s).apply order, hres, ?_, rfl, rfl, rfl, rfl, rfl, rfl, rfl⟩
  unfold prisma.order.findUnique
  rw [hord, find_after_update]
  unfold prisma.order.findUnique at hfind
  rw [hfind]
  rfl

/-- C21 on the processing order: after a request for `shipped` the order is shipped and
otherwise as before. -/
theorem C21_status_update_witness :
    ("shipped" : String) ≠ "" ∧ parseInt (JSId.str "1") = some 1 ∧
      prisma.order.findUnique orderWorld 1 = some shopOrder ∧
      (updateOrderStatus orderWorld "1" (some "shipped")).2 =
        ⟨200, Body.order { shopOrder with status := "shipped" }⟩ ∧
      ∃ o1, (updateOrderStatus orderWorld "1" (some "shipped")).2 = ⟨200, Body.order o1⟩ ∧
        prisma.order.findUnique (updateOrderStatus orderWorld "1" (some "shipped")).1 1 =
          some o1 ∧
        o1.status = "shipped" ∧ o1.id = shopOrder.id ∧ o1.userId = shopOrder.userId ∧
        o1.totalAmount = shopOrder.totalAmount ∧ o1.statusNote = shopOrder.statusNote ∧
        o1.userDeleted = shopOrder.userDeleted ∧ o1.items = shopOrder.items :=
  ⟨by decide, by decide, by decide, by decide,
    C21_status_update_changes_only_the_status orderWorld "1" "shipped" 1 shopOrder
      (by decide) (by decide) (by decide)⟩

theorem channelOpen_of_none (w : World ν) (h : w.rabbitChannel = none) :
    channelOpen w = false := by
  unfold channelOpen; rw [h]

/-- C28: while no channel handle is set, a status update or a deletion of an existing
order applies its change to the store and answers with success, and the only effect it
performs is that database write: no message is published under any routing key and no
stock write is issued, also when a non-terminal order is cancelled or deleted. -/
theorem C28_no_handle_no_event_no_stock_write (w : World ν) (idParam : String)
    (status : String) (orderId : Int) (order : Order ν) (hs : status ≠ "")
    (hid : parseInt (JSId.str idParam) = some orderId)
    (hfind : prisma.order.findUnique w orderId = some order)
    (hnone : w.rabbitChannel = none) :
    ((updateOrderStatus w idParam (some status)).2 =
        ⟨200, Body.order { order with status := status }⟩ ∧
      prisma.order.findUnique (updateOrderStatus w idParam (some status)).1 orderId =
        some { order with status := status } ∧
      emitted w (updateOrderStatus w idParam (some status)).1 =
        [Effect.orderUpdate orderId (statusPatch status)] ∧
      (∀ k, publishedWith k (emitted w (updateOrderStatus w idParam (some status)).1) = []) ∧
      stockWrites (emitted w (updateOrderStatus w idParam (some status)).1) = []) ∧
    ((deleteOrder w idParam).2 = ⟨204, Body.empty⟩ ∧
      prisma.order.findUnique (deleteOrder w idParam).1 orderId = none ∧
      emitted w (deleteOrder w idParam).1 = [Effect.orderDelete orderId] ∧
      (∀ k, publishedWith k (emitted w (deleteOrder w idParam).1) = []) ∧
      stockWrites (emitted w (deleteOrder w idParam).1) = []) := by
  have hclosed := channelOpen_of_none w hnone
  have hup : emitted w (updateOrderStatus w idParam (some status)).1 =
      [Effect.orderUpdate orderId (statusPatch status)] := by
    rw [updateOrderStatus_trace w idParam status orderId order hs hid hfind, hclosed]
    simp
  have hdel : emitted w (deleteOrder w idParam).1 = [Effect.orderDelete orderId] := by
    rw [deleteOrder_trace w idParam orderId order hid hfind, hclosed]
    simp
  obtain ⟨hres, hord⟩ := updateOrderStatus_result w idParam status orderId order hs hid hfind
  refine ⟨⟨hres, ?_, hup, ?_, ?_⟩, deleteOrder_response w idParam orderId order hid hfind,
    deleteOrder_removes w idParam orderId order hid hfind, hdel, ?_, ?_⟩
  · unfold prisma.order.findUnique
    rw [hord, find_after_update]
    unfold prisma.order.findUnique at hfind
    rw [hfind]
    rfl
  · intro k; rw [hup]; rfl
  · rw [hup]; rfl
  · intro k; rw [hdel]; rfl
  · rw [hdel]; rfl

/-- C28 on the processing order while no handle is set: cancelling it performs the
update and nothing else, deleting it performs the removal and nothing else. -/
theorem C28_no_handle_witness :
    ("cancelled" : String) ≠ "" ∧ parseInt (JSId.str "1") = some 1 ∧
      prisma.order.findUnique { orderWorld with rabbitChannel := none } 1 = some shopOrder ∧
      emitted { orderWorld with rabbitChannel := none }
          (updateOrderStatus { orderWorld with rabbitChannel := none } "1"
            (some "cancelled")).1 = [Effect.orderUpdate 1 (statusPatch "cancelled")] ∧
      emitted { orderWorld with rabbitChannel := none }
          (deleteOrder { orderWorld with rabbitChannel := none } "1").1 =
        [Effect.orderDelete 1] :=
  ⟨by decide, by decide, by decide,
    (C28_no_handle_no_event_no_stock_write { orderWorld with rabbitChannel := none } "1"
      "cancelled" 1 shopOrder (by decide) (by decide) (by decide) rfl).1.2.2.1,
    (C28_no_handle_no_event_no_stock_write { orderWorld with rabbitChannel := none } "1"
      "cancelled" 1 shopOrder (by decide) (by decide) (by decide) rfl).2.2.2.1⟩

/-! ## Status values, identifiers with a numeric start, connection retries -/

/-- C23 (evaluation at the failing input): the processing order has one of the seven
statuses; a status-update request with status `refunded` is answered 200 and leaves the
stored order with status `refunded`, which is none of the seven. -/
theorem C23_status_update_stores_any_status :
    (prisma.order.findUnique orderWorld 1).map (fun o => decide (o.status ∈ validStatuses)) =
        some true ∧
      (updateOrderStatus orderWorld "1" (some "refunded")).2 =
        ⟨200, Body.order { shopOrder with status := "refunded" }⟩ ∧
      (prisma.order.findUnique (updateOrderStatus orderWorld "1" (some "refunded")).1 1).map
        (fun o => o.status) = some "refunded" ∧
      "refunded" ∉ validStatuses := by
  decide

/-- C27 (evaluation at the failing input): the id `507f1f77bcf86cd799439011` is not a
decimal integer literal, `parseInt` reads it as 507, and both handlers mark the open
order that refers to product 507, respectively to user 507, as affected. -/
theorem C27_numeric_start_of_id_marks_orders :
    parseInt (JSId.str "507f1f77bcf86cd799439011") = some 507 ∧
      (handleProductEvent prefixWorld ⟨JSId.str "507f1f77bcf86cd799439011", "Widget"⟩
          "product.deleted").orders =
        [{ id := 1, userId := 507, totalAmount := 10, status := "affected",
           statusNote := some "Product Widget is no longer available", userDeleted := false,
           items := [⟨507, 1, "Widget", 10⟩] }] ∧
      (handleUserEvent prefixWorld ⟨JSId.str "507f1f77bcf86cd799439011"⟩
          "user.deleted").orders =
        [{ id := 1, userId := 507, totalAmount := 10, status := "affected",
           statusNote := some "User account has been deleted", userDeleted := true,
           items := [⟨507, 1, "Widget", 10⟩] }] := by
  decide

theorem connectSteps_succ (k n : Nat) :
    (List.range (n + 1)).flatMap
        (fun j => [ConnectStep.attempt (k + j), ConnectStep.wait 5000]) =
      ConnectStep.attempt k :: ConnectStep.wait 5000 ::
        (List.range n).flatMap
          (fun j => [ConnectStep.attempt (k + 1 + j), ConnectStep.wait 5000]) := by
  rw [List.range_succ_eq_map, List.flatMap_cons, List.flatMap_map]
  simp only [Nat.add_zero, List.cons_append, List.nil_append, Function.comp]
  congr 2
  apply List.flatMap_congr
  intro j _
  rw [show k + Nat.succ j = k + 1 + j by omega]

/-- The steps of `connect` up to and including the first successful attempt, when that
attempt is number `k + n` and `connect` starts at attempt `k`. -/
theorem connect_from (broker : Nat → ConnectAttempt) (n : Nat) :
    ∀ (k fuel : Nat) (connection : Nat) (channel : Channel),
      (∀ j, j < n → ∀ c ch, broker (k + j) ≠ ConnectAttempt.connected c ch) →
      broker (k + n) = ConnectAttempt.connected connection channel →
      n < fuel →
      connect broker fuel k =
        some (connection, channel,
          (List.range n).flatMap
              (fun j => [ConnectStep.attempt (k + j), ConnectStep.wait 5000]) ++
            [ConnectStep.attempt (k + n)]) := by
  induction n with
  | zero =>
    intro k fuel connection channel _ hok hfuel
    obtain ⟨f, rfl⟩ : ∃ f, fuel = f + 1 := ⟨fuel - 1, by omega⟩
    rw [Nat.add_zero] at hok
    simp [connect, hok]
  | succ n ih =>
    intro k fuel connection channel hfail hok hfuel
    obtain ⟨f, rfl⟩ : ∃ f, fuel = f + 1 := ⟨fuel - 1, by omega⟩
    have h0 : ∀ c ch, broker k ≠ ConnectAttempt.connected c ch := by
      intro c ch
      have := hfail 0 (Nat.succ_pos n) c ch
      rwa [Nat.add_zero] at this
    have hrec := ih (k + 1) f connection channel
      (fun j hj c ch => by
        have := hfail (j + 1) (Nat.succ_lt_succ hj) c ch
        rwa [show k + (j + 1) = k + 1 + j by omega] at this)
      (by rwa [show k + 1 + n = k + (n + 1) by omega])
      (by omega)
    rw [connect]
    cases hb : broker k with
    | connected c ch => exact absurd hb (h0 c ch)
    | connectThrows =>
      simp only [hrec, Option.map_some', connectSteps_succ, List.cons_append]
      rw [show k + 1 + n = k + (n + 1) by omega]
    | createChannelThrows c =>
      simp only [hrec, Option.map_some', connectSteps_succ, List.cons_append]
      rw [show k + 1 + n = k + (n + 1) by omega]

/-- C24: when the first attempt that succeeds is attempt number `n` (counted from 0, so
the `n + 1`-th), `connect` returns the connection and the channel of that attempt, after
exactly `n + 1` attempts and a wait of 5000 ms after each of the `n` failed ones, for
every `n`: once the recursion is allowed `n + 1` calls the result is there, and no bound
on the number of attempts is built into it. -/
theorem C24_connect_retries_until_first_success (broker : Nat → ConnectAttempt) (n : Nat)
    (connection : Nat) (channel : Channel)
    (hfail : ∀ j, j < n → ∀ c ch, broker j ≠ ConnectAttempt.connected c ch)
    (hok : broker n = ConnectAttempt.connected connection channel)
    (fuel : Nat) (hfuel : n < fuel) :
    connect broker fuel 0 =
      some (connection, channel,
        (List.range n).flatMap (fun j => [ConnectStep.attempt j, ConnectStep.wait 5000]) ++
          [ConnectStep.attempt n]) := by
  have h := connect_from broker n 0 fuel connection channel
    (fun j hj c ch => by rw [Nat.zero_add]; exact hfail j hj c ch)
    (by rw [Nat.zero_add]; exact hok) hfuel
  simpa using h

/-- C24 on a broker whose fourth attempt is the first to succeed: four attempts, three
waits of 5000 ms, and the connection and channel of the fourth attempt. -/
theorem C24_connect_witness :
    flakyBroker 3 = ConnectAttempt.connected 11 ⟨false⟩ ∧
      connect flakyBroker 4 0 =
        some (11, ⟨false⟩,
          [ConnectStep.attempt 0, ConnectStep.wait 5000, ConnectStep.attempt 1,
           ConnectStep.wait 5000, ConnectStep.attempt 2, ConnectStep.wait 5000,
           ConnectStep.attempt 3]) :=
  ⟨rfl,
    C24_connect_retries_until_first_success flakyBroker 3 11 ⟨false⟩
      (fun j hj c ch => by
        have hj3 : j = 0 ∨ j = 1 ∨ j = 2 := by omega
        rcases hj3 with rfl | rfl | rfl <;> simp [flakyBroker])
      rfl 4 (by decide)⟩

/-! ## Order creation: what is checked on a quantity -/

/-- On the event path the item loop leaves the products as they are, and when it ends
without an early return every line item has passed the stock comparison against them. -/
theorem createOrderItemLoop_checked [Add ν] [Mul ν] [Sub ν] [LT ν]
    [DecidableRel (fun a b : ν => a < b)] (items : List (LineItem ν)) :
    ∀ (w : World ν) (total : ν) (acc : List (OrderItem ν)) (w1 : World ν) (total1 : ν)
      (acc1 : List (OrderItem ν)) (c : Channel),
      createOrderItemLoop w total acc items = (w1, Except.ok (total1, acc1)) →
      w.rabbitChannel = some c →
      w1.products = w.products ∧
        ∀ li ∈ items, ∃ p, w.products.find? (fun p => decide (p._id = li.productId)) = some p ∧
          ¬(li.quantity > p.stock) := by
  induction items with
  | nil =>
    intro w total acc w1 total1 acc1 c h _
    simp only [createOrderItemLoop, Prod.mk.injEq, Except.ok.injEq] at h
    obtain ⟨rfl, -, -⟩ := h
    exact ⟨rfl, fun li hli => absurd hli (List.not_mem_nil li)⟩
  | cons item rest ih =>
    intro w total acc w1 total1 acc1 c h hw
    rw [createOrderItemLoop] at h
    simp only [axiosGetProduct] at h
    split at h
    · simp at h
    · rename_i product hfind
      split at h
      · simp at h
      · rename_i hstock
        split at h
        · rename_i channel hch
          obtain ⟨hprod, hall⟩ := ih _ _ _ _ _ _ channel h
            (by rw [publishToExchange_rabbitChannel]; exact hch)
          rw [publishToExchange_products] at hprod hall
          refine ⟨hprod, ?_⟩
          intro li hli
          rcases List.mem_cons.mp hli with rfl | hmem
          · exact ⟨product, hfind, hstock⟩
          · exact hall li hmem
        · rename_i hch
          have : w.rabbitChannel = none := hch
          rw [hw] at this
          simp at this

/-- The `inventory.reserved` messages of a `POST /` that ends in a 201 response on an
open channel: those of the requested line items, in request order. -/
theorem createOrder_reserved_messages [Zero ν] [Add ν] [Mul ν] [Sub ν] [LT ν]
    [DecidableRel (fun a b : ν => a < b)] (w : World ν) (body : CreateOrderBody ν)
    (o : Order ν) (c : Channel) (h : (createOrder w body).2 = ⟨201, Body.order o⟩)
    (hw : w.rabbitChannel = some c) (hcl : c.closed = false) :
    ∃ lines, body.products = ProductsField.array lines ∧
      publishedWith "inventory.reserved" (emitted w (createOrder w body).1) =
        lines.map reservedMessage := by
  obtain ⟨lines, es, hp, htr, hres, -, -⟩ := createOrder_created_trace w body o c h hw
  refine ⟨lines, hp, ?_⟩
  have hk : ¬("order.created" = "inventory.reserved") := by decide
  rw [htr]
  simp only [hcl, Bool.false_eq_true, if_false] at hres ⊢
  unfold publishedWith at hres ⊢
  simp only [List.filterMap_cons, List.filterMap_append, hres, hk, if_false,
    List.filterMap_nil, List.append_nil]

/-- C22 fails as stated: a request for no laptop and for minus three phones is answered
201, and the order is persisted with the quantities 0 and -3. -/
theorem C22_zero_and_negative_quantity_persisted :
    (createOrder shopWorld nonPositiveBody).2 = ⟨201, Body.order nonPositiveOrder⟩ ∧
      ((createOrder shopWorld nonPositiveBody).1.orders.map
        (fun o => o.items.map (fun i => i.quantity))) = [[0, -3]] := by
  decide

/-- C22 (amended): when `POST /` answers 201 with the order `o`, every item of `o` has
the quantity of its request line, whatever that quantity is; and when the channel handle
is set, every line quantity has passed the one check made on it, the comparison with the
stock of its product: it is not greater than that stock. -/
theorem C22_persisted_quantity_is_the_requested_one [Zero ν] [Add ν] [Mul ν] [Sub ν]
    [LT ν] [DecidableRel (fun a b : ν => a < b)] (w : World ν) (body : CreateOrderBody ν)
    (o : Order ν) (h : (createOrder w body).2 = ⟨201, Body.order o⟩) :
    ∃ lines, body.products = ProductsField.array lines ∧
      List.Forall₂ (fun li item => item.quantity = li.quantity) lines o.items ∧
      ∀ c, w.rabbitChannel = some c →
        ∀ li ∈ lines,
          ∃ p, w.products.find? (fun p => decide (p._id = li.productId)) = some p ∧
            ¬(li.quantity > p.stock) := by
  obtain ⟨lines, userId, wl, total, items, hp, hloop, -, ho, -⟩ :=
    createOrder_created w body o h
  obtain ⟨new, hnew, -, hfa, -⟩ := createOrderItemLoop_ok lines _ _ _ _ _ _ hloop
  simp only [List.nil_append] at hnew
  subst hnew
  have hitems : o.items = items := by rw [ho]; rfl
  refine ⟨lines, hp, ?_, ?_⟩
  · rw [hitems]
    exact hfa.imp (fun li it hit => hit.2.1)
  · intro c hc
    exact (createOrderItemLoop_checked lines _ _ _ _ _ _ c hloop
      (show (axiosGetUser w body.userId).1.rabbitChannel = some c from hc)).2

/-- C22 (amended) on the request with quantities 0 and -3. -/
theorem C22_persisted_quantity_witness :
    (createOrder shopWorld nonPositiveBody).2 = ⟨201, Body.order nonPositiveOrder⟩ ∧
      ∃ lines, nonPositiveBody.products = ProductsField.array lines ∧
        List.Forall₂ (fun li item => item.quantity = li.quantity) lines
          nonPositiveOrder.items ∧
        ∀ c, shopWorld.rabbitChannel = some c →
          ∀ li ∈ lines,
            ∃ p, shopWorld.products.find? (fun p => decide (p._id = li.productId)) = some p ∧
              ¬(li.quantity > p.stock) :=
  ⟨by decide,
    C22_persisted_quantity_is_the_requested_one shopWorld nonPositiveBody nonPositiveOrder
      (by decide)⟩

/-- C26 fails as stated: ten laptops are in stock, a request with two lines of six
laptops each is answered 201, and its two `inventory.reserved` messages reserve twelve
laptops. -/
theorem C26_two_lines_reserve_more_than_stock :
    (shopWorld.products.find? (fun p => decide (p._id = 1))).map (fun p => p.stock) =
        some 10 ∧
      (createOrder shopWorld twoLinesBody).2.status = 201 ∧
      publishedWith "inventory.reserved"
          (emitted shopWorld (createOrder shopWorld twoLinesBody).1) =
        [⟨"inventory_events", "inventory.reserved", Payload.reserved 1 6⟩,
         ⟨"inventory_events", "inventory.reserved", Payload.reserved 1 6⟩] ∧
      reservedQuantity 1 (publishedWith "inventory.reserved"
        (emitted shopWorld (createOrder shopWorld twoLinesBody).1)) = 12 := by
  decide

/-- C26 (amended): when `POST /` answers 201 while the channel is available, every
`inventory.reserved` message it has published is the message of a requested line item
whose quantity, taken by itself, is not greater than the stock of its product. -/
theorem C26_each_reserved_quantity_within_stock [Zero ν] [Add ν] [Mul ν] [Sub ν] [LT ν]
    [DecidableRel (fun a b : ν => a < b)] (w : World ν) (body : CreateOrderBody ν)
    (o : Order ν) (h : (createOrder w body).2 = ⟨201, Body.order o⟩)
    (hopen : channelOpen w = true) :
    ∀ m ∈ publishedWith "inventory.reserved" (emitted w (createOrder w body).1),
      ∃ productId quantity p,
        m = ⟨"inventory_events", "inventory.reserved", Payload.reserved productId quantity⟩ ∧
        w.products.find? (fun p => decide (p._id = productId)) = some p ∧
        ¬(quantity > p.stock) := by
  obtain ⟨c, hw, hcl⟩ := (channelOpen_iff w).mp hopen
  obtain ⟨lines, hp, hpub⟩ := createOrder_reserved_messages w body o c h hw hcl
  obtain ⟨lines1, userId, wl, total, items, hp1, hloop, -, -, -⟩ :=
    createOrder_created w body o h
  have hl : lines1 = lines := by
    rw [hp] at hp1
    injection hp1 with hp1
    exact hp1.symm
  subst hl
  have hchecked := (createOrderItemLoop_checked lines1 _ _ _ _ _ _ c hloop
    (show (axiosGetUser w body.userId).1.rabbitChannel = some c from hw)).2
  intro m hm
  rw [hpub, List.mem_map] at hm
  obtain ⟨li, hli, rfl⟩ := hm
  obtain ⟨p, hfind, hstock⟩ := hchecked li hli
  exact ⟨li.productId, li.quantity, p, rfl, hfind, hstock⟩

/-- C26 (amended) on the request for two laptops and three phones. -/
theorem C26_each_reserved_quantity_witness :
    (createOrder shopWorld shopBody).2 = ⟨201, Body.order shopOrder⟩ ∧
      channelOpen shopWorld = true ∧
      ∀ m ∈ publishedWith "inventory.reserved"
          (emitted shopWorld (createOrder shopWorld shopBody).1),
        ∃ productId quantity p,
          m = ⟨"inventory_events", "inventory.reserved",
            Payload.reserved productId quantity⟩ ∧
          shopWorld.products.find? (fun p => decide (p._id = productId)) = some p ∧
          ¬(quantity > p.stock) :=
  ⟨by decide, by decide,
    C26_each_reserved_quantity_within_stock shopWorld shopBody shopOrder (by decide)
      (by decide)⟩

/-! ## Order creation on a closed channel -/

theorem publishToExchange_users (w : World ν) (c : Channel) (e k : String) (m : Payload ν) :
    (publishToExchange w c e k m).users = w.users := by
  unfold publishToExchange World.log; split <;> rfl

theorem sameUpToChannel_publish (w w1 : World ν) (c c1 : Channel) (e k : String)
    (m m1 : Payload ν) (h : SameUpToChannel w w1) :
    SameUpToChannel (publishToExchange w c e k m) (publishToExchange w1 c1 e k m1) := by
  unfold SameUpToChannel at h ⊢
  simp only [publishToExchange_orders, publishToExchange_nextOrderId, publishToExchange_users,
    publishToExchange_products, publishToExchange_rabbitChannel]
  exact h

/-- While the channel handle is set, the item loop ends the same way whether or not the
publications succeed: the same early return or the same total and items. -/
theorem createOrderItemLoop_sameUpToChannel [Add ν] [Mul ν] [Sub ν] [LT ν]
    [DecidableRel (fun a b : ν => a < b)] (items : List (LineItem ν)) :
    ∀ (w w1 : World ν) (total : ν) (acc : List (OrderItem ν)), SameUpToChannel w w1 →
      (createOrderItemLoop w total acc items).2 = (createOrderItemLoop w1 total acc items).2 ∧
        SameUpToChannel (createOrderItemLoop w total acc items).1
          (createOrderItemLoop w1 total acc items).1 := by
  induction items with
  | nil => intro w w1 total acc h; exact ⟨rfl, h⟩
  | cons item rest ih =>
    intro w w1 total acc h
    obtain ⟨ho, hn, hu, hp, hc, hc1⟩ := h
    obtain ⟨c, hc⟩ := Option.isSome_iff_exists.mp hc
    obtain ⟨c1, hc1⟩ := Option.isSome_iff_exists.mp hc1
    have hlog : ∀ e e1, SameUpToChannel (w.log e) (w1.log e1) := by
      intro e e1
      exact ⟨ho, hn, hu, hp, by simp [World.log, hc], by simp [World.log, hc1]⟩
    rw [createOrderItemLoop, createOrderItemLoop]
    simp only [axiosGetProduct]
    rw [hp]
    cases hf : w1.products.find? (fun p => decide (p._id = item.productId)) with
    | none => exact ⟨rfl, hlog _ _⟩
    | some product =>
      simp only []
      by_cases hs : item.quantity > product.stock
      · rw [if_pos hs, if_pos hs]
        exact ⟨rfl, hlog _ _⟩
      · rw [if_neg hs, if_neg hs]
        have hcl : (w.log (Effect.getProduct item.productId)).rabbitChannel = some c := hc
        have hcl1 : (w1.log (Effect.getProduct item.productId)).rabbitChannel = some c1 := hc1
        rw [hcl, hcl1]
        simp only []
        exact ih _ _ _ _ (sameUpToChannel_publish _ _ c c1 _ _ _ _ (hlog _ _))

/-- While the channel handle is set, `POST /` gives the same response whether or not the
publications succeed. -/
theorem createOrder_sameUpToChannel [Zero ν] [Add ν] [Mul ν] [Sub ν] [LT ν]
    [DecidableRel (fun a b : ν => a < b)] (w w1 : World ν) (body : CreateOrderBody ν)
    (h : SameUpToChannel w w1) : (createOrder w body).2 = (createOrder w1 body).2 := by
  have hu : w.users = w1.users := h.2.2.1
  have hlog : SameUpToChannel (axiosGetUser w body.userId).1 (axiosGetUser w1 body.userId).1 :=
    ⟨h.1, h.2.1, h.2.2.1, h.2.2.2.1, h.2.2.2.2.1, h.2.2.2.2.2⟩
  unfold createOrder
  cases hp : body.products with
  | missing => rfl
  | notArray => rfl
  | array lines =>
    simp only []
    by_cases hv : body.userId.truthy = false ∨ lines.length = 0
    · rw [if_pos hv, if_pos hv]
    · rw [if_neg hv, if_neg hv]
      have hu2 : (axiosGetUser w body.userId).2 = (axiosGetUser w1 body.userId).2 := by
        simp [axiosGetUser, hu]
      rw [hu2]
      by_cases hx : (axiosGetUser w1 body.userId).2 = false
      · rw [if_pos hx, if_pos hx]
      · rw [if_neg hx, if_neg hx]
        obtain ⟨hr, hsame⟩ := createOrderItemLoop_sameUpToChannel lines
          (axiosGetUser w body.userId).1 (axiosGetUser w1 body.userId).1 0 [] hlog
        generalize createOrderItemLoop (axiosGetUser w body.userId).1 0 [] lines = r
          at hr hsame ⊢
        generalize createOrderItemLoop (axiosGetUser w1 body.userId).1 0 [] lines = r1
          at hr hsame ⊢
        obtain ⟨wl, res⟩ := r
        obtain ⟨wl1, res1⟩ := r1
        simp only [] at hr hsame ⊢
        subst hr
        cases res with
        | error e => rfl
        | ok p =>
          obtain ⟨total, items⟩ := p
          simp only []
          cases hid : parseInt body.userId with
          | none => rfl
          | some userId =>
            simp only []
            obtain ⟨-, hn, -, -, hc, hc1⟩ := hsame
            obtain ⟨c, hc⟩ := Option.isSome_iff_exists.mp hc
            obtain ⟨c1, hc1⟩ := Option.isSome_iff_exists.mp hc1
            have hcr : (prisma.order.create wl userId total "processing" items).2 =
                (prisma.order.create wl1 userId total "processing" items).2 := by
              simp [prisma.order.create, hn]
            have hch : (prisma.order.create wl userId total "processing" items).1.rabbitChannel =
                some c := hc
            have hch1 :
                (prisma.order.create wl1 userId total "processing" items).1.rabbitChannel =
                some c1 := hc1
            rw [hch, hch1]
            simp only [hcr]

/-- C25: whenever a request is answered 201 with an order while the channel is open, the
same request in the same world with the channel closed, so that every publication fails
inside `publishToExchange`, is answered 201 with the same order; it publishes no
`inventory.reserved` message and issues no stock write, so that no line item is reserved
by either path, and the order is persisted all the same. -/
theorem C25_closed_channel_creates_without_reserving [Zero ν] [Add ν] [Mul ν] [Sub ν]
    [LT ν] [DecidableRel (fun a b : ν => a < b)] (w : World ν) (body : CreateOrderBody ν)
    (o : Order ν)
    (h : (createOrder { w with rabbitChannel := some ⟨false⟩ } body).2 =
      ⟨201, Body.order o⟩) :
    (createOrder { w with rabbitChannel := some ⟨true⟩ } body).2 = ⟨201, Body.order o⟩ ∧
      o ∈ (createOrder { w with rabbitChannel := some ⟨true⟩ } body).1.orders ∧
      publishedWith "inventory.reserved"
        (emitted { w with rabbitChannel := some ⟨true⟩ }
          (createOrder { w with rabbitChannel := some ⟨true⟩ } body).1) = [] ∧
      stockWrites
        (emitted { w with rabbitChannel := some ⟨true⟩ }
          (createOrder { w with rabbitChannel := some ⟨true⟩ } body).1) = [] := by
  have hsame : SameUpToChannel { w with rabbitChannel := some ⟨true⟩ }
      { w with rabbitChannel := some ⟨false⟩ } := ⟨rfl, rfl, rfl, rfl, rfl, rfl⟩
  have h201 : (createOrder { w with rabbitChannel := some ⟨true⟩ } body).2 =
      ⟨201, Body.order o⟩ := by
    rw [createOrder_sameUpToChannel _ _ body hsame]; exact h
  obtain ⟨lines, es, -, htr, hres, hsw, hother⟩ :=
    createOrder_created_trace { w with rabbitChannel := some ⟨true⟩ } body o ⟨true⟩ h201 rfl
  obtain ⟨lines1, userId, wl, total, items, -, -, -, -, hstore⟩ :=
    createOrder_created { w with rabbitChannel := some ⟨true⟩ } body o h201
  refine ⟨h201, by rw [hstore]; simp, ?_, ?_⟩
  · rw [htr]
    simp only [if_true] at hres ⊢
    unfold publishedWith at hres ⊢
    simp [List.filterMap_cons, List.filterMap_append, hres]
  · rw [htr]
    simp only [if_true]
    unfold stockWrites at hsw ⊢
    simp [List.filterMap_cons, List.filterMap_append, hsw]

/-- C25 on the request for two products with the channel closed. -/
theorem C25_closed_channel_witness :
    (createOrder { brokerLostWorld with rabbitChannel := some ⟨false⟩ } shopBody).2 =
        ⟨201, Body.order shopOrder⟩ ∧
      (createOrder { brokerLostWorld with rabbitChannel := some ⟨true⟩ } shopBody).2 =
        ⟨201, Body.order shopOrder⟩ ∧
      publishedWith "inventory.reserved"
        (emitted { brokerLostWorld with rabbitChannel := some ⟨true⟩ }
          (createOrder { brokerLostWorld with rabbitChannel := some ⟨true⟩ } shopBody).1) =
        [] ∧
      stockWrites
        (emitted { brokerLostWorld with rabbitChannel := some ⟨true⟩ }
          (createOrder { brokerLostWorld with rabbitChannel := some ⟨true⟩ } shopBody).1) =
        [] :=
  ⟨by decide,
    (C25_closed_channel_creates_without_reserving brokerLostWorld shopBody shopOrder
      (by decide)).1,
    (C25_closed_channel_creates_without_reserving brokerLostWorld shopBody shopOrder
      (by decide)).2.2.1,
    (C25_closed_channel_creates_without_reserving brokerLostWorld shopBody shopOrder
      (by decide)).2.2.2⟩

end OrdersService
